import Mathlib

/-!
# LunaEye voice assistant — verification of the core voice/state logic

Shallow embedding of the LunaEye browser voice assistant's core logic:

* the transcript-string operations (`detectWakeWord`,
  `extractCommandFromTranscript`) of `VoiceManager`;
* the `StateManager` state machine (`setState`, history, notifications);
* the `VoiceManager` recognition supervisor (restart scheduling,
  lifecycle handlers, interruption) as a state-transformer model;
* the WebSocket request/timeout logic of `processCommand`.

JavaScript strings are modelled as `List Char`; the regex operations
used by the source (`toLowerCase`, `replace(/[.,!?]/g,'')`,
`replace(/\s+/g,' ')`, `trim`, `indexOf`, `substring`) are embedded as
executable functions on `List Char`.  Timers are modelled with explicit
handles plus a ghost list of live timer ids, and the asynchronous event
handlers of the source become explicit state-transformer functions.
-/

namespace LunaEye

/-- JavaScript strings, modelled as lists of characters. -/
abbrev Str := List Char

/-- `String.prototype.toLowerCase`, per character (ASCII case mapping). -/
def jsToLower (c : Char) : Char := c.toLower

/-- JavaScript regex `\s` whitespace class (ASCII part). -/
def isWs (c : Char) : Bool :=
  c == ' ' || c == '\t' || c == '\n' || c == '\r' || c == '\x0b' || c == '\x0c'

/-- The punctuation removed by the source's `replace(/[.,!?]/g, '')`. -/
def isPunct (c : Char) : Bool :=
  c == '.' || c == ',' || c == '!' || c == '?'

/-- `t.toLowerCase().replace(/[.,!?]/g, '')`. -/
def lowerNoPunct (s : Str) : Str :=
  (s.map jsToLower).filter (fun c => !(isPunct c))

/-- `replace(/\s+/g, ' ')`: every maximal run of whitespace becomes a
single space. -/
def collapse : Str → Str
  | [] => []
  | [c] => if isWs c then [' '] else [c]
  | c₁ :: c₂ :: cs =>
    if isWs c₁ && isWs c₂ then collapse (c₂ :: cs)
    else (if isWs c₁ then ' ' else c₁) :: collapse (c₂ :: cs)

/-- Drop leading whitespace. -/
def ltrim (s : Str) : Str := s.dropWhile isWs

/-- Drop trailing whitespace. -/
def rtrim (s : Str) : Str := (s.reverse.dropWhile isWs).reverse

/-- `String.prototype.trim`. -/
def trimStr (s : Str) : Str := rtrim (ltrim s)

/-- The transcript cleaning done by `detectWakeWord` and
`extractCommandFromTranscript`: lowercase, strip `.,!?`, collapse
whitespace runs, trim. -/
def cleanTranscript (s : Str) : Str := trimStr (collapse (lowerNoPunct s))

/-- The wake-word cleaning: `wakeWord.toLowerCase().replace(/\s+/g,' ').trim()`
(no punctuation stripping). -/
def cleanWake (s : Str) : Str := trimStr (collapse (s.map jsToLower))

/-- `this.wakeWord = 'hey luna'`. -/
def wakeWordMain : Str := "hey luna".toList

/-- `this.alternativeWakeWords = ['luna', 'hey luna', 'ok luna', 'luda',
'hey luda', 'ok luda']`. -/
def alternativeWakeWords : List Str :=
  ["luna".toList, "hey luna".toList, "ok luna".toList, "luda".toList,
   "hey luda".toList, "ok luda".toList]

/-- `const allWakeWords = [this.wakeWord, ...this.alternativeWakeWords]`. -/
def allWakeWords : List Str := wakeWordMain :: alternativeWakeWords

/-- `String.prototype.indexOf`: index of the first occurrence of `pat`,
`none` when absent. -/
def firstIdxOf? (pat : Str) : Str → Option Nat
  | [] => if pat.isEmpty then some 0 else none
  | c :: cs =>
    if pat <+: (c :: cs) then some 0
    else (firstIdxOf? pat cs).map (· + 1)

/-- `detectWakeWord(transcript)`: clean the transcript, then test substring
containment of each cleaned wake word in turn. -/
def detectWakeWord (t : Str) : Bool :=
  let ct := cleanTranscript t
  allWakeWords.any (fun w => (firstIdxOf? (cleanWake w) ct).isSome)

/-- The wake-word loop of `extractCommandFromTranscript`: at the first list
entry that occurs in the cleaned transcript, keep the trimmed text after
that first occurrence and stop. -/
def extractLoop : List Str → Str → Str
  | [], cmd => cmd
  | w :: ws, cmd =>
    let cw := cleanWake w
    match firstIdxOf? cw cmd with
    | some i => trimStr (cmd.drop (i + cw.length))
    | none => extractLoop ws cmd

/-- `extractCommandFromTranscript(transcript)`. -/
def extractCommandFromTranscript (t : Str) : Str :=
  extractLoop allWakeWords (cleanTranscript t)

/-! ### Lemmas about `firstIdxOf?` -/

theorem firstIdxOf?_isSome_iff {pat : Str} :
    ∀ {s : Str}, (firstIdxOf? pat s).isSome ↔ pat <:+: s := by
  intro s
  induction s with
  | nil =>
    cases pat with
    | nil => simp [firstIdxOf?]
    | cons c cs => simp [firstIdxOf?, List.isEmpty]
  | cons c cs ih =>
    rw [firstIdxOf?]
    by_cases h : pat <+: (c :: cs)
    · simp [h, List.infix_cons_iff]
    · have hm : (Option.map (· + 1) (firstIdxOf? pat cs)).isSome
          = (firstIdxOf? pat cs).isSome := by
        cases firstIdxOf? pat cs <;> rfl
      rw [if_neg h, hm, ih, List.infix_cons_iff]
      tauto

theorem firstIdxOf?_eq_none_iff {pat s : Str} :
    firstIdxOf? pat s = none ↔ ¬ pat <:+: s := by
  rw [← firstIdxOf?_isSome_iff, Option.isSome_iff_ne_none]
  tauto

theorem firstIdxOf?_of_prefix {pat s : Str} (h : pat <+: s) :
    firstIdxOf? pat s = some 0 := by
  cases s with
  | nil =>
    have : pat = [] := List.prefix_nil.mp h
    simp [this, firstIdxOf?]
  | cons c cs => rw [firstIdxOf?, if_pos h]

theorem firstIdxOf?_cons_of_head_ne {a : Char} {pt : Str} {b : Char} {s : Str}
    (hne : a ≠ b) :
    firstIdxOf? (a :: pt) (b :: s) = (firstIdxOf? (a :: pt) s).map (· + 1) := by
  rw [firstIdxOf?, if_neg]
  intro h
  exact hne (List.cons_prefix_cons.mp h).1

/-! ### Decomposing prefixes and infixes of concatenations -/

theorem prefix_append_split {p a b : Str} (h : p <+: a ++ b) :
    p <+: a ∨ ∃ q, p = a ++ q ∧ q <+: b := by
  by_cases hl : p.length ≤ a.length
  · exact Or.inl (List.prefix_of_prefix_length_le h (a.prefix_append b) hl)
  · have ha : a <+: p :=
      List.prefix_of_prefix_length_le (a.prefix_append b) h (Nat.le_of_not_le hl)
    obtain ⟨q, rfl⟩ := ha
    refine Or.inr ⟨q, rfl, ?_⟩
    obtain ⟨t, ht⟩ := h
    rw [List.append_assoc] at ht
    exact ⟨t, List.append_cancel_left ht⟩

theorem infix_append_split {p a b : Str} (h : p <:+: a ++ b) :
    p <:+: a ∨ p <:+: b ∨ ∃ q r, p = q ++ r ∧ q ≠ [] ∧ q <:+ a ∧ r <+: b := by
  induction a with
  | nil =>
    rw [List.nil_append] at h
    exact Or.inr (Or.inl h)
  | cons x a ih =>
    rw [List.cons_append, List.infix_cons_iff] at h
    rcases h with hp | hi
    · rw [show x :: (a ++ b) = (x :: a) ++ b from rfl] at hp
      rcases prefix_append_split hp with h1 | ⟨q, rfl, hq⟩
      · exact Or.inl h1.isInfix
      · rcases Decidable.em (q = []) with rfl | hq0
        · rw [List.append_nil]
          exact Or.inl (List.infix_refl _)
        · exact Or.inr (Or.inr ⟨x :: a, q, rfl, List.cons_ne_nil _ _,
            List.suffix_refl _, hq⟩)
    · rcases ih hi with h1 | h2 | ⟨q, r, rfl, hq0, hqa, hrb⟩
      · exact Or.inl (h1.trans (List.infix_cons_iff.mpr (Or.inr (List.infix_refl a))))
      · exact Or.inr (Or.inl h2)
      · exact Or.inr (Or.inr ⟨q, r, rfl, hq0, hqa.trans (List.suffix_cons x a), hrb⟩)

/-- The transcript shape produced by prepending a wake phrase: a wake-word
alternative `ww` does not occur in `w' ++ c` provided it does not occur in
the (concrete) `w'`, does not occur in `c`, and no nonempty suffix of `w'`
is a prefix of `ww` (no occurrence can straddle the boundary). -/
theorem not_infix_append_of_no_straddle {ww w' c : Str}
    (hnc : ¬ ww <:+: c) (hconc : ¬ ww <:+: w')
    (hspan : ∀ q ∈ w'.tails, q = [] ∨ ¬ q <+: ww) :
    ¬ ww <:+: w' ++ c := by
  intro h
  rcases infix_append_split h with h1 | h2 | ⟨q, r, rfl, hq0, hqa, _⟩
  · exact hconc h1
  · exact hnc h2
  · rcases hspan q ((List.mem_tails q w').mpr hqa) with rfl | hnp
    · exact hq0 rfl
    · exact hnp (q.prefix_append r)

/-! ### Lemmas about `collapse`, `ltrim`, `rtrim` -/

theorem collapse_cons_not_ws {c : Char} (hc : isWs c = false) (s : Str) :
    collapse (c :: s) = c :: collapse s := by
  cases s with
  | nil => simp [collapse, hc]
  | cons d t => simp [collapse, hc]

theorem collapse_ws_cons {s : Str} :
    ∀ {c : Char}, isWs c = true →
      collapse (c :: s) = ' ' :: collapse (s.dropWhile isWs) := by
  induction s with
  | nil =>
    intro c hc
    simp [collapse, hc]
  | cons d t ih =>
    intro c hc
    by_cases hd : isWs d = true
    · rw [show collapse (c :: d :: t) = collapse (d :: t) by simp [collapse, hc, hd],
        ih hd]
      simp [List.dropWhile_cons, hd]
    · rw [show collapse (c :: d :: t) = ' ' :: collapse (d :: t) by
        simp [collapse, hc, hd]]
      simp [List.dropWhile_cons, hd]

theorem dropWhile_head_false {p : Char → Bool} :
    ∀ {l : List Char} {x : Char} {xs : List Char},
      l.dropWhile p = x :: xs → p x = false := by
  intro l
  induction l with
  | nil => intro x xs h; simp at h
  | cons a t ih =>
    intro x xs h
    rw [List.dropWhile_cons] at h
    by_cases ha : p a = true
    · rw [if_pos ha] at h; exact ih h
    · rw [if_neg ha] at h
      cases h
      simpa using ha

theorem ltrim_collapse_of_head (q : Str)
    (hq : ∀ x xs, q = x :: xs → isWs x = false) :
    ltrim (collapse q) = collapse q := by
  cases q with
  | nil => rfl
  | cons y ys =>
    have hy : isWs y = false := hq y ys rfl
    rw [collapse_cons_not_ws hy]
    simp [ltrim, List.dropWhile_cons, hy]

theorem ltrim_collapse (s : Str) : ltrim (collapse s) = collapse (ltrim s) := by
  cases s with
  | nil => rfl
  | cons c cs =>
    by_cases hc : isWs c = true
    · rw [collapse_ws_cons hc]
      have h1 : ltrim (' ' :: collapse (cs.dropWhile isWs))
          = ltrim (collapse (cs.dropWhile isWs)) := by
        rw [ltrim, List.dropWhile_cons, if_pos (show isWs ' ' = true from rfl)]
        rfl
      rw [h1, ltrim_collapse_of_head _ (fun x xs h => dropWhile_head_false h)]
      rw [show ltrim (c :: cs) = cs.dropWhile isWs by
        rw [ltrim, List.dropWhile_cons, if_pos hc]]
    · have hc' : isWs c = false := by simpa using hc
      rw [collapse_cons_not_ws hc']
      rw [show ltrim (c :: cs) = c :: cs by
        rw [ltrim, List.dropWhile_cons, if_neg (by simp [hc'])],
        collapse_cons_not_ws hc']
      rw [ltrim, List.dropWhile_cons, if_neg (by simp [hc'])]

theorem rtrim_append_of_ne_nil {b : Str} (a : Str) (h : rtrim b ≠ []) :
    rtrim (a ++ b) = a ++ rtrim b := by
  have hb : (b.reverse.dropWhile isWs).isEmpty = false := by
    rcases hdw : b.reverse.dropWhile isWs with _ | ⟨x, xs⟩
    · exact absurd (by simp [rtrim, hdw]) h
    · rfl
  rw [rtrim, List.reverse_append, List.dropWhile_append, if_neg (by simp [hb]),
    List.reverse_append, List.reverse_reverse, rtrim]

theorem rtrim_append_of_nil {b : Str} (a : Str) (h : rtrim b = []) :
    rtrim (a ++ b) = rtrim a := by
  have hb : b.reverse.dropWhile isWs = [] := by
    have := congrArg List.reverse h
    simpa [rtrim] using this
  rw [rtrim, List.reverse_append, List.dropWhile_append, if_pos (by simp [hb]), rtrim]

theorem rtrim_prefix (w : Str) : rtrim w <+: w := by
  have h : (w.reverse.dropWhile isWs) <:+ w.reverse := List.dropWhile_suffix _
  have := List.reverse_prefix.mpr h
  simpa [rtrim] using this

theorem rtrim_rtrim (w : Str) : rtrim (rtrim w) = rtrim w := by
  simp [rtrim, List.dropWhile_idempotent]

theorem ltrim_head_false {w : Str} (h : ltrim w = w) :
    ∀ x xs, w = x :: xs → isWs x = false := by
  intro x xs hw
  subst hw
  by_contra hx
  have hx' : isWs x = true := by simpa using hx
  rw [ltrim, List.dropWhile_cons, if_pos hx'] at h
  have hlen := congrArg List.length h
  have hle : (xs.dropWhile isWs).length ≤ xs.length :=
    (List.dropWhile_sublist isWs).length_le
  rw [List.length_cons] at hlen
  omega

theorem ltrim_rtrim_of_ltrim_eq {w : Str} (h : ltrim w = w) :
    ltrim (rtrim w) = rtrim w := by
  rcases hr : rtrim w with _ | ⟨x, xs⟩
  · rfl
  · have hp : rtrim w <+: w := rtrim_prefix w
    rw [hr] at hp
    cases w with
    | nil => simp at hp
    | cons y ys =>
      have hxy : x = y := (List.cons_prefix_cons.mp hp).1
      have hy : isWs y = false := ltrim_head_false h y ys rfl
      subst hxy
      simp [ltrim, List.dropWhile_cons, hy]

theorem ltrim_cleanTranscript (t : Str) :
    ltrim (cleanTranscript t) = cleanTranscript t := by
  rw [cleanTranscript, trimStr]
  exact ltrim_rtrim_of_ltrim_eq (by simp [ltrim, List.dropWhile_idempotent])

theorem rtrim_cleanTranscript (t : Str) :
    rtrim (cleanTranscript t) = cleanTranscript t := by
  rw [cleanTranscript, trimStr, rtrim_rtrim]

theorem trimStr_cleanTranscript (t : Str) :
    trimStr (cleanTranscript t) = cleanTranscript t := by
  rw [trimStr, ltrim_cleanTranscript, rtrim_cleanTranscript]

theorem trimStr_space_cleanTranscript (t : Str) :
    trimStr (' ' :: cleanTranscript t) = cleanTranscript t := by
  have h1 : ltrim (' ' :: cleanTranscript t) = ltrim (cleanTranscript t) := by
    rw [ltrim, List.dropWhile_cons, if_pos (show isWs ' ' = true from rfl)]
    rfl
  rw [trimStr, h1, ltrim_cleanTranscript, rtrim_cleanTranscript]

/-! ### Cleaning a transcript of the form `wakePhrase + " " + cmd` -/

/-- Shape of the concrete wake phrases: nonempty, ending in a non-whitespace
character, and every whitespace character is a single space followed by a
non-whitespace character. -/
def spacedWord : Str → Bool
  | [] => false
  | [c] => !isWs c
  | c :: d :: t =>
    (if isWs c then c == ' ' && !isWs d else true) && spacedWord (d :: t)

theorem collapse_spaced_append :
    ∀ {w : Str}, spacedWord w = true → ∀ z : Str,
      collapse (w ++ ' ' :: z) = w ++ ' ' :: collapse (z.dropWhile isWs) := by
  intro w
  induction w with
  | nil => intro h; simp [spacedWord] at h
  | cons c w' ih =>
    intro h z
    cases w' with
    | nil =>
      have hc : isWs c = false := by
        by_cases hws : isWs c = true <;> simp [spacedWord, hws] at h ⊢
      rw [show (c :: []) ++ ' ' :: z = c :: ' ' :: z from rfl,
        collapse_cons_not_ws hc, collapse_ws_cons (show isWs ' ' = true from rfl)]
      rfl
    | cons d t =>
      rw [spacedWord, Bool.and_eq_true] at h
      obtain ⟨h1, h2⟩ := h
      by_cases hc : isWs c = true
      · rw [if_pos hc, Bool.and_eq_true] at h1
        obtain ⟨hc', hd⟩ := h1
        have hceq : c = ' ' := by simpa using hc'
        have hd' : isWs d = false := by simpa using hd
        subst hceq
        rw [show (' ' :: d :: t) ++ ' ' :: z = ' ' :: (d :: t) ++ ' ' :: z from rfl,
          show (' ' :: (d :: t) ++ ' ' :: z) = ' ' :: ((d :: t) ++ ' ' :: z) from rfl]
        rw [show collapse (' ' :: ((d :: t) ++ ' ' :: z))
            = ' ' :: collapse ((d :: t) ++ ' ' :: z) by
          rw [show (d :: t) ++ ' ' :: z = d :: (t ++ ' ' :: z) from rfl]
          simp [collapse, hd']]
        rw [ih h2 z]
        rfl
      · have hc' : isWs c = false := by simpa using hc
        rw [show (c :: d :: t) ++ ' ' :: z = c :: ((d :: t) ++ ' ' :: z) from rfl,
          collapse_cons_not_ws hc', ih h2 z]
        rfl

/-- `cleanTranscript (w ++ " " ++ cmd)` for a clean wake phrase `w`:
the cleaned command, prefixed by `w` and a separating space (the trailing
space is trimmed away when the command cleans to nothing). -/
theorem cleanTranscript_wake_append {w : Str} (hsp : spacedWord w = true)
    (hlp : lowerNoPunct w = w) (hlt : ltrim w = w) (hrt : rtrim w = w)
    (cmd : Str) :
    cleanTranscript (w ++ ' ' :: cmd)
      = if cleanTranscript cmd = [] then w
        else w ++ ' ' :: cleanTranscript cmd := by
  have hwne : w ≠ [] := by
    intro hw
    rw [hw] at hsp
    simp [spacedWord] at hsp
  have h1 : lowerNoPunct (w ++ ' ' :: cmd) = w ++ ' ' :: lowerNoPunct cmd := by
    rw [lowerNoPunct, List.map_append, List.filter_append]
    rw [show (w.map jsToLower).filter (fun c => !(isPunct c)) = w from hlp]
    rw [show List.map jsToLower (' ' :: cmd) = ' ' :: List.map jsToLower cmd from rfl]
    rw [show List.filter (fun c => !(isPunct c)) (' ' :: List.map jsToLower cmd)
        = ' ' :: List.filter (fun c => !(isPunct c)) (List.map jsToLower cmd) by
      simp [List.filter_cons, isPunct]]
    rfl
  rw [cleanTranscript, trimStr, h1, collapse_spaced_append hsp]
  have hltr : ltrim (w ++ ' ' :: collapse ((lowerNoPunct cmd).dropWhile isWs))
      = w ++ ' ' :: collapse ((lowerNoPunct cmd).dropWhile isWs) := by
    rw [ltrim, List.dropWhile_append]
    rw [show List.dropWhile isWs w = w from hlt]
    rw [if_neg (by simpa [List.isEmpty_iff] using hwne)]
  rw [hltr]
  have hclean : cleanTranscript cmd
      = rtrim (collapse ((lowerNoPunct cmd).dropWhile isWs)) := by
    rw [cleanTranscript, trimStr, ltrim_collapse]
    rfl
  by_cases hc : cleanTranscript cmd = []
  · rw [if_pos hc]
    have h2 : rtrim (' ' :: collapse ((lowerNoPunct cmd).dropWhile isWs)) = [] := by
      rw [show (' ' :: collapse ((lowerNoPunct cmd).dropWhile isWs))
          = [' '] ++ collapse ((lowerNoPunct cmd).dropWhile isWs) from rfl,
        rtrim_append_of_nil _ (hclean ▸ hc)]
      rfl
    rw [show w ++ ' ' :: collapse ((lowerNoPunct cmd).dropWhile isWs)
        = w ++ (' ' :: collapse ((lowerNoPunct cmd).dropWhile isWs)) from rfl,
      rtrim_append_of_nil _ h2, hrt]
  · rw [if_neg hc]
    have hne : rtrim (collapse ((lowerNoPunct cmd).dropWhile isWs)) ≠ [] :=
      hclean ▸ hc
    rw [show w ++ ' ' :: collapse ((lowerNoPunct cmd).dropWhile isWs)
        = (w ++ [' ']) ++ collapse ((lowerNoPunct cmd).dropWhile isWs) by simp,
      rtrim_append_of_ne_nil _ hne, ← hclean]
    simp

/-! ### Unfolding the wake-word loop -/

theorem extractLoop_cons_found {e : Str} {es : List Str} {s : Str} {i : Nat}
    (h : firstIdxOf? (cleanWake e) s = some i) :
    extractLoop (e :: es) s = trimStr (s.drop (i + (cleanWake e).length)) := by
  simp [extractLoop, h]

theorem extractLoop_cons_skip {e : Str} {es : List Str} {s : Str}
    (h : firstIdxOf? (cleanWake e) s = none) :
    extractLoop (e :: es) s = extractLoop es s := by
  simp [extractLoop, h]

theorem firstIdxOf?_skip_entry {ww wfull c : Str} (w' : Str)
    (hshape : wfull ++ ' ' :: c = w' ++ c)
    (hnc : ¬ ww <:+: c) (hconc : ¬ ww <:+: w')
    (hspan : ∀ q ∈ w'.tails, q = [] ∨ ¬ q <+: ww) :
    firstIdxOf? ww (wfull ++ ' ' :: c) = none := by
  rw [firstIdxOf?_eq_none_iff, hshape]
  exact not_infix_append_of_no_straddle hnc hconc hspan

theorem extractLoop_all_skip :
    ∀ (ws : List Str) (s : Str),
      (∀ ww ∈ ws, ¬ cleanWake ww <:+: s) → extractLoop ws s = s := by
  intro ws
  induction ws with
  | nil => intro s _; rfl
  | cons e es ih =>
    intro s h
    rw [extractLoop_cons_skip (firstIdxOf?_eq_none_iff.mpr (h e (List.mem_cons_self e es)))]
    exact ih s (fun ww hww => h ww (List.mem_cons_of_mem _ hww))

/-! ### Extraction after each wake-phrase alternative -/

theorem extract_after_hey_luna (cmd : Str)
    (_hno : ∀ ww ∈ allWakeWords, ¬ cleanWake ww <:+: cleanTranscript cmd) :
    extractCommandFromTranscript ("hey luna".toList ++ ' ' :: cmd)
      = cleanTranscript cmd := by
  have hct := cleanTranscript_wake_append (w := "hey luna".toList) (by decide)
    (by decide) (by decide) (by decide) cmd
  rw [extractCommandFromTranscript, hct]
  by_cases hc : cleanTranscript cmd = []
  · rw [if_pos hc, hc]; decide
  · rw [if_neg hc,
      show allWakeWords = [wakeWordMain, "luna".toList, "hey luna".toList,
        "ok luna".toList, "luda".toList, "hey luda".toList, "ok luda".toList] from rfl]
    have h1 : firstIdxOf? (cleanWake wakeWordMain)
        ("hey luna".toList ++ ' ' :: cleanTranscript cmd) = some 0 := by
      rw [show cleanWake wakeWordMain = "hey luna".toList from rfl]
      exact firstIdxOf?_of_prefix ⟨' ' :: cleanTranscript cmd, rfl⟩
    rw [extractLoop_cons_found h1,
      List.drop_left' (show ("hey luna".toList).length
        = 0 + (cleanWake wakeWordMain).length from rfl)]
    exact trimStr_space_cleanTranscript cmd

theorem extract_after_luna (cmd : Str)
    (hno : ∀ ww ∈ allWakeWords, ¬ cleanWake ww <:+: cleanTranscript cmd) :
    extractCommandFromTranscript ("luna".toList ++ ' ' :: cmd)
      = cleanTranscript cmd := by
  have hct := cleanTranscript_wake_append (w := "luna".toList) (by decide)
    (by decide) (by decide) (by decide) cmd
  rw [extractCommandFromTranscript, hct]
  by_cases hc : cleanTranscript cmd = []
  · rw [if_pos hc, hc]; decide
  · rw [if_neg hc,
      show allWakeWords = [wakeWordMain, "luna".toList, "hey luna".toList,
        "ok luna".toList, "luda".toList, "hey luda".toList, "ok luda".toList] from rfl]
    rw [extractLoop_cons_skip (firstIdxOf?_skip_entry ("luna ".toList) rfl
      (hno wakeWordMain (by decide)) (by decide) (by decide))]
    have h2 : firstIdxOf? (cleanWake ("luna".toList))
        ("luna".toList ++ ' ' :: cleanTranscript cmd) = some 0 := by
      rw [show cleanWake ("luna".toList) = "luna".toList from rfl]
      exact firstIdxOf?_of_prefix ⟨' ' :: cleanTranscript cmd, rfl⟩
    rw [extractLoop_cons_found h2,
      List.drop_left' (show ("luna".toList).length
        = 0 + (cleanWake ("luna".toList)).length from rfl)]
    exact trimStr_space_cleanTranscript cmd

theorem extract_after_ok_luna (cmd : Str)
    (hno : ∀ ww ∈ allWakeWords, ¬ cleanWake ww <:+: cleanTranscript cmd) :
    extractCommandFromTranscript ("ok luna".toList ++ ' ' :: cmd)
      = cleanTranscript cmd := by
  have hct := cleanTranscript_wake_append (w := "ok luna".toList) (by decide)
    (by decide) (by decide) (by decide) cmd
  rw [extractCommandFromTranscript, hct]
  by_cases hc : cleanTranscript cmd = []
  · rw [if_pos hc, hc]; decide
  · rw [if_neg hc,
      show allWakeWords = [wakeWordMain, "luna".toList, "hey luna".toList,
        "ok luna".toList, "luda".toList, "hey luda".toList, "ok luda".toList] from rfl]
    rw [extractLoop_cons_skip (firstIdxOf?_skip_entry ("ok luna ".toList) rfl
      (hno wakeWordMain (by decide)) (by decide) (by decide))]
    have h2 : firstIdxOf? (cleanWake ("luna".toList))
        ("ok luna".toList ++ ' ' :: cleanTranscript cmd) = some 3 := by
      rw [show cleanWake ("luna".toList) = "luna".toList from rfl,
        show ("ok luna".toList ++ ' ' :: cleanTranscript cmd)
          = 'o' :: 'k' :: ' ' :: ('l' :: 'u' :: 'n' :: 'a'
              :: (' ' :: cleanTranscript cmd)) from rfl,
        show ("luna".toList : Str) = 'l' :: "una".toList from rfl,
        firstIdxOf?_cons_of_head_ne (show ('l' : Char) ≠ 'o' from by decide),
        firstIdxOf?_cons_of_head_ne (show ('l' : Char) ≠ 'k' from by decide),
        firstIdxOf?_cons_of_head_ne (show ('l' : Char) ≠ ' ' from by decide),
        show firstIdxOf? ('l' :: "una".toList)
            ('l' :: 'u' :: 'n' :: 'a' :: (' ' :: cleanTranscript cmd)) = some 0 from
          firstIdxOf?_of_prefix ⟨' ' :: cleanTranscript cmd, rfl⟩]
      rfl
    rw [extractLoop_cons_found h2,
      List.drop_left' (show ("ok luna".toList).length
        = 3 + (cleanWake ("luna".toList)).length from rfl)]
    exact trimStr_space_cleanTranscript cmd

theorem extract_after_luda (cmd : Str)
    (hno : ∀ ww ∈ allWakeWords, ¬ cleanWake ww <:+: cleanTranscript cmd) :
    extractCommandFromTranscript ("luda".toList ++ ' ' :: cmd)
      = cleanTranscript cmd := by
  have hct := cleanTranscript_wake_append (w := "luda".toList) (by decide)
    (by decide) (by decide) (by decide) cmd
  rw [extractCommandFromTranscript, hct]
  by_cases hc : cleanTranscript cmd = []
  · rw [if_pos hc, hc]; decide
  · rw [if_neg hc,
      show allWakeWords = [wakeWordMain, "luna".toList, "hey luna".toList,
        "ok luna".toList, "luda".toList, "hey luda".toList, "ok luda".toList] from rfl]
    rw [extractLoop_cons_skip (firstIdxOf?_skip_entry ("luda ".toList) rfl
      (hno wakeWordMain (by decide)) (by decide) (by decide))]
    rw [extractLoop_cons_skip (firstIdxOf?_skip_entry ("luda ".toList) rfl
      (hno ("luna".toList) (by decide)) (by decide) (by decide))]
    rw [extractLoop_cons_skip (firstIdxOf?_skip_entry ("luda ".toList) rfl
      (hno ("hey luna".toList) (by decide)) (by decide) (by decide))]
    rw [extractLoop_cons_skip (firstIdxOf?_skip_entry ("luda ".toList) rfl
      (hno ("ok luna".toList) (by decide)) (by decide) (by decide))]
    have h2 : firstIdxOf? (cleanWake ("luda".toList))
        ("luda".toList ++ ' ' :: cleanTranscript cmd) = some 0 := by
      rw [show cleanWake ("luda".toList) = "luda".toList from rfl]
      exact firstIdxOf?_of_prefix ⟨' ' :: cleanTranscript cmd, rfl⟩
    rw [extractLoop_cons_found h2,
      List.drop_left' (show ("luda".toList).length
        = 0 + (cleanWake ("luda".toList)).length from rfl)]
    exact trimStr_space_cleanTranscript cmd

theorem extract_after_hey_luda (cmd : Str)
    (hno : ∀ ww ∈ allWakeWords, ¬ cleanWake ww <:+: cleanTranscript cmd) :
    extractCommandFromTranscript ("hey luda".toList ++ ' ' :: cmd)
      = cleanTranscript cmd := by
  have hct := cleanTranscript_wake_append (w := "hey luda".toList) (by decide)
    (by decide) (by decide) (by decide) cmd
  rw [extractCommandFromTranscript, hct]
  by_cases hc : cleanTranscript cmd = []
  · rw [if_pos hc, hc]; decide
  · rw [if_neg hc,
      show allWakeWords = [wakeWordMain, "luna".toList, "hey luna".toList,
        "ok luna".toList, "luda".toList, "hey luda".toList, "ok luda".toList] from rfl]
    rw [extractLoop_cons_skip (firstIdxOf?_skip_entry ("hey luda ".toList) rfl
      (hno wakeWordMain (by decide)) (by decide) (by decide))]
    rw [extractLoop_cons_skip (firstIdxOf?_skip_entry ("hey luda ".toList) rfl
      (hno ("luna".toList) (by decide)) (by decide) (by decide))]
    rw [extractLoop_cons_skip (firstIdxOf?_skip_entry ("hey luda ".toList) rfl
      (hno ("hey luna".toList) (by decide)) (by decide) (by decide))]
    rw [extractLoop_cons_skip (firstIdxOf?_skip_entry ("hey luda ".toList) rfl
      (hno ("ok luna".toList) (by decide)) (by decide) (by decide))]
    have h2 : firstIdxOf? (cleanWake ("luda".toList))
        ("hey luda".toList ++ ' ' :: cleanTranscript cmd) = some 4 := by
      rw [show cleanWake ("luda".toList) = "luda".toList from rfl,
        show ("hey luda".toList ++ ' ' :: cleanTranscript cmd)
          = 'h' :: 'e' :: 'y' :: ' ' :: ('l' :: 'u' :: 'd' :: 'a'
              :: (' ' :: cleanTranscript cmd)) from rfl,
        show ("luda".toList : Str) = 'l' :: "uda".toList from rfl,
        firstIdxOf?_cons_of_head_ne (show ('l' : Char) ≠ 'h' from by decide),
        firstIdxOf?_cons_of_head_ne (show ('l' : Char) ≠ 'e' from by decide),
        firstIdxOf?_cons_of_head_ne (show ('l' : Char) ≠ 'y' from by decide),
        firstIdxOf?_cons_of_head_ne (show ('l' : Char) ≠ ' ' from by decide),
        show firstIdxOf? ('l' :: "uda".toList)
            ('l' :: 'u' :: 'd' :: 'a' :: (' ' :: cleanTranscript cmd)) = some 0 from
          firstIdxOf?_of_prefix ⟨' ' :: cleanTranscript cmd, rfl⟩]
      rfl
    rw [extractLoop_cons_found h2,
      List.drop_left' (show ("hey luda".toList).length
        = 4 + (cleanWake ("luda".toList)).length from rfl)]
    exact trimStr_space_cleanTranscript cmd

theorem extract_after_ok_luda (cmd : Str)
    (hno : ∀ ww ∈ allWakeWords, ¬ cleanWake ww <:+: cleanTranscript cmd) :
    extractCommandFromTranscript ("ok luda".toList ++ ' ' :: cmd)
      = cleanTranscript cmd := by
  have hct := cleanTranscript_wake_append (w := "ok luda".toList) (by decide)
    (by decide) (by decide) (by decide) cmd
  rw [extractCommandFromTranscript, hct]
  by_cases hc : cleanTranscript cmd = []
  · rw [if_pos hc, hc]; decide
  · rw [if_neg hc,
      show allWakeWords = [wakeWordMain, "luna".toList, "hey luna".toList,
        "ok luna".toList, "luda".toList, "hey luda".toList, "ok luda".toList] from rfl]
    rw [extractLoop_cons_skip (firstIdxOf?_skip_entry ("ok luda ".toList) rfl
      (hno wakeWordMain (by decide)) (by decide) (by decide))]
    rw [extractLoop_cons_skip (firstIdxOf?_skip_entry ("ok luda ".toList) rfl
      (hno ("luna".toList) (by decide)) (by decide) (by decide))]
    rw [extractLoop_cons_skip (firstIdxOf?_skip_entry ("ok luda ".toList) rfl
      (hno ("hey luna".toList) (by decide)) (by decide) (by decide))]
    rw [extractLoop_cons_skip (firstIdxOf?_skip_entry ("ok luda ".toList) rfl
      (hno ("ok luna".toList) (by decide)) (by decide) (by decide))]
    have h2 : firstIdxOf? (cleanWake ("luda".toList))
        ("ok luda".toList ++ ' ' :: cleanTranscript cmd) = some 3 := by
      rw [show cleanWake ("luda".toList) = "luda".toList from rfl,
        show ("ok luda".toList ++ ' ' :: cleanTranscript cmd)
          = 'o' :: 'k' :: ' ' :: ('l' :: 'u' :: 'd' :: 'a'
              :: (' ' :: cleanTranscript cmd)) from rfl,
        show ("luda".toList : Str) = 'l' :: "uda".toList from rfl,
        firstIdxOf?_cons_of_head_ne (show ('l' : Char) ≠ 'o' from by decide),
        firstIdxOf?_cons_of_head_ne (show ('l' : Char) ≠ 'k' from by decide),
        firstIdxOf?_cons_of_head_ne (show ('l' : Char) ≠ ' ' from by decide),
        show firstIdxOf? ('l' :: "uda".toList)
            ('l' :: 'u' :: 'd' :: 'a' :: (' ' :: cleanTranscript cmd)) = some 0 from
          firstIdxOf?_of_prefix ⟨' ' :: cleanTranscript cmd, rfl⟩]
      rfl
    rw [extractLoop_cons_found h2,
      List.drop_left' (show ("ok luda".toList).length
        = 3 + (cleanWake ("luda".toList)).length from rfl)]
    exact trimStr_space_cleanTranscript cmd

/-- The six wake-phrase alternatives (`hey luna` plus the phonetic
near-misses), without the duplicate entry of `allWakeWords`. -/
def wakeAlternativesClaim : List Str :=
  ["hey luna".toList, "luna".toList, "ok luna".toList, "luda".toList,
   "hey luda".toList, "ok luda".toList]

/-- C7 counterexample: the round-trip as literally claimed fails — for the
alternative `luna` and the command `Hello!`,
`extractCommandFromTranscript("luna" + " " + "Hello!")` is the *cleaned*
command `hello`, not the merely trimmed command `Hello!`. -/
theorem extract_roundtrip_raw_cmd_counterexample :
    extractCommandFromTranscript ("luna".toList ++ ' ' :: "Hello!".toList)
        ≠ trimStr ("Hello!".toList)
    ∧ extractCommandFromTranscript ("luna".toList ++ ' ' :: "Hello!".toList)
        = "hello".toList := by
  decide

/-- C7 (amended): for every wake-phrase alternative `w` among
`hey luna, luna, ok luna, luda, hey luda, ok luda` and every command string
`cmd` whose cleaned form contains no wake-word alternative,
`extractCommandFromTranscript (w + " " + cmd)` returns the *cleaned* form of
`cmd` (lowercased, `.,!?` removed, whitespace collapsed, trimmed). -/
theorem extract_roundtrip_after_wake_cleaned :
    ∀ w ∈ wakeAlternativesClaim, ∀ cmd : Str,
      (∀ ww ∈ allWakeWords, ¬ cleanWake ww <:+: cleanTranscript cmd) →
      extractCommandFromTranscript (w ++ ' ' :: cmd) = cleanTranscript cmd := by
  intro w hw cmd hno
  have hw' : w = "hey luna".toList ∨ w = "luna".toList ∨ w = "ok luna".toList
      ∨ w = "luda".toList ∨ w = "hey luda".toList ∨ w = "ok luda".toList := by
    simpa [wakeAlternativesClaim] using hw
  rcases hw' with rfl | rfl | rfl | rfl | rfl | rfl
  · exact extract_after_hey_luna cmd hno
  · exact extract_after_luna cmd hno
  · exact extract_after_ok_luna cmd hno
  · exact extract_after_luda cmd hno
  · exact extract_after_hey_luda cmd hno
  · exact extract_after_ok_luda cmd hno

/-- Witness for the amended C7 round-trip, at `w = luna`,
`cmd = "what time is it"`. -/
theorem extract_roundtrip_after_wake_cleaned_witness :
    ("luna".toList ∈ wakeAlternativesClaim)
    ∧ (∀ ww ∈ allWakeWords,
        ¬ cleanWake ww <:+: cleanTranscript ("what time is it".toList))
    ∧ extractCommandFromTranscript ("luna".toList ++ ' ' :: "what time is it".toList)
        = cleanTranscript ("what time is it".toList) :=
  ⟨by decide, by decide,
    extract_roundtrip_after_wake_cleaned ("luna".toList) (by decide)
      ("what time is it".toList) (by decide)⟩

/-- C10: on a transcript whose cleaned form contains no wake-word
alternative, `extractCommandFromTranscript` returns the whole cleaned
transcript (it never signals "no wake word present"), and
`detectWakeWord` — the check callers must make separately — is `false`. -/
theorem extract_without_wake_word_returns_cleaned (t : Str)
    (h : ∀ ww ∈ allWakeWords, ¬ cleanWake ww <:+: cleanTranscript t) :
    extractCommandFromTranscript t = cleanTranscript t
      ∧ detectWakeWord t = false := by
  refine ⟨extractLoop_all_skip _ _ h, ?_⟩
  have hall : ∀ w ∈ allWakeWords,
      (firstIdxOf? (cleanWake w) (cleanTranscript t)).isSome = false := by
    intro w hw
    rw [firstIdxOf?_eq_none_iff.mpr (h w hw)]
    rfl
  simp only [detectWakeWord, List.any_eq_false]
  intro w hw
  simp [hall w hw]

/-- Witness for C10 at the transcript `What time is it?` (cleaned form
`what time is it`, returned whole). -/
theorem extract_without_wake_word_returns_cleaned_witness :
    (∀ ww ∈ allWakeWords,
      ¬ cleanWake ww <:+: cleanTranscript ("What time is it?".toList))
    ∧ extractCommandFromTranscript ("What time is it?".toList)
        = cleanTranscript ("What time is it?".toList)
    ∧ detectWakeWord ("What time is it?".toList) = false :=
  ⟨by decide,
    (extract_without_wake_word_returns_cleaned ("What time is it?".toList)
      (by decide)).1,
    (extract_without_wake_word_returns_cleaned ("What time is it?".toList)
      (by decide)).2⟩

/-! ## The `StateManager` state machine -/

/-- Values attached to a transition context (`{source: ...}`,
`{command, confidence}`, `{transcript}`, ...). -/
inductive CtxVal
  | str (s : String)
  | chars (s : Str)
  | num (n : Nat)
deriving DecidableEq

/-- A `setState` context object: keys mapped to values. -/
abbrev Ctx := List (String × CtxVal)

/-- `Object.values(this.states)` — the six assistant states. -/
def stateValues : List String :=
  ["idle", "waking", "listening", "thinking", "speaking", "error"]

/-- One entry of `this.stateHistory`: `{state, timestamp, context}` — the
state being left, `Date.now()` in milliseconds, and the context object of
the call. -/
structure HistRecord where
  state : String
  timestamp : Nat
  context : Ctx
deriving DecidableEq

/-- The `StateManager` instance state.  `emitted` is a ghost log of the
callbacks delivered (the `preTransition` callbacks and the three
subscriber keys of `notifyListeners`); `pendingPostTransitions` counts the
deferred `postTransition` timers scheduled by `setState`. -/
structure SMState where
  currentState : String
  previousState : Option String
  stateHistory : List HistRecord
  emitted : List String
  pendingPostTransitions : Nat
deriving DecidableEq

/-- `new StateManager()`. -/
def initSM : SMState :=
  { currentState := "idle", previousState := none, stateHistory := [],
    emitted := [], pendingPostTransitions := 0 }

/-- `isValidState(state)`. -/
def isValidState (s : String) : Bool := stateValues.contains s

/-- `getTransitionDuration(state)`: `this.transitionDurations` with the
500 ms default. -/
def getTransitionDuration (s : String) : Nat :=
  if s = "idle" then 1000 else if s = "waking" then 600
  else if s = "listening" then 400 else if s = "thinking" then 800
  else if s = "speaking" then 500 else if s = "error" then 300 else 500

/-- `setState(newState, context)` of the enhanced `StateManager`:
validity guard, same-state no-op, `preTransition` callbacks, history push
bounded at 50 with the oldest entry shifted off, update of
`previousState`/`currentState`, synchronous notification of the three
event keys, and one deferred `postTransition` timer. -/
def setState (sm : SMState) (newState : String) (ctx : Ctx) (now : Nat) :
    SMState × Bool :=
  if ¬ (isValidState newState = true) then (sm, false)
  else if sm.currentState = newState then (sm, true)
  else
    let hist1 := sm.stateHistory ++ [HistRecord.mk sm.currentState now ctx]
    let hist2 := if 50 < hist1.length then hist1.tail else hist1
    let prev := sm.currentState
    ({ currentState := newState
       previousState := some prev
       stateHistory := hist2
       emitted := sm.emitted ++
         ["preTransition", "stateChange", "state:" ++ newState, "from:" ++ prev]
       pendingPostTransitions := sm.pendingPostTransitions + 1 }, true)

/-- `getStateHistory(limit)`: the `limit` most recent records. -/
def getStateHistory (sm : SMState) (limit : Nat) : List HistRecord :=
  sm.stateHistory.drop (sm.stateHistory.length - limit)

/-- C6: when the target equals the current state (the current state being
one of the six enum values), `setState` returns success with no side
effects; when the target is not one of the six enum values it returns
failure leaving the instance completely unchanged — current state kept, no
history record appended, no subscriber notified. -/
theorem setState_same_state_and_invalid_guard (sm : SMState) (ctx : Ctx) (now : Nat) :
    (∀ ns, isValidState sm.currentState = true → ns = sm.currentState →
      setState sm ns ctx now = (sm, true))
    ∧ (∀ ns, isValidState ns = false → setState sm ns ctx now = (sm, false)) := by
  constructor
  · intro ns hcur hns
    subst hns
    simp [setState, hcur]
  · intro ns hns
    simp [setState, hns]

/-- Witness for C6: on a fresh instance, `setState("idle")` is a successful
no-op and `setState("bogus")` fails without effect. -/
theorem setState_same_state_and_invalid_guard_witness :
    setState initSM "idle" [] 0 = (initSM, true)
    ∧ setState initSM "bogus" [] 0 = (initSM, false) :=
  ⟨(setState_same_state_and_invalid_guard initSM [] 0).1 "idle" (by decide) rfl,
   (setState_same_state_and_invalid_guard initSM [] 0).2 "bogus" (by decide)⟩

/-- C9 counterexample: the appended history record does not contain the
to-state.  Two accepted transitions out of the same state toward different
targets (`waking` vs `error`) append byte-for-byte identical records — the
record `{state, timestamp, context}` stores only the from-state. -/
theorem history_record_no_to_state_counterexample :
    (setState initSM "waking" [] 5).1.stateHistory
        = (setState initSM "error" [] 5).1.stateHistory
    ∧ (setState initSM "waking" [] 5).1.stateHistory
        = [HistRecord.mk "idle" 5 []] := by
  decide

/-- C9 (amended): on every accepted transition, a record containing the
from-state, the millisecond timestamp, and the context map — but not the
to-state — is appended to the history, and the history is bounded to the
50 most recent records, the oldest evicted first. -/
theorem setState_history_append_bounded (sm : SMState) (ns : String)
    (ctx : Ctx) (now : Nat)
    (hval : isValidState ns = true) (hne : sm.currentState ≠ ns) :
    (setState sm ns ctx now).1.stateHistory
        = (if 50 < (sm.stateHistory ++ [HistRecord.mk sm.currentState now ctx]).length
           then (sm.stateHistory ++ [HistRecord.mk sm.currentState now ctx]).tail
           else sm.stateHistory ++ [HistRecord.mk sm.currentState now ctx])
    ∧ (sm.stateHistory.length ≤ 50 →
        (setState sm ns ctx now).1.stateHistory.length ≤ 50) := by
  have hmain : (setState sm ns ctx now).1.stateHistory
      = (if 50 < (sm.stateHistory ++ [HistRecord.mk sm.currentState now ctx]).length
         then (sm.stateHistory ++ [HistRecord.mk sm.currentState now ctx]).tail
         else sm.stateHistory ++ [HistRecord.mk sm.currentState now ctx]) := by
    simp [setState, hval, hne]
  refine ⟨hmain, fun hb => ?_⟩
  rw [hmain]
  by_cases h : 50 < (sm.stateHistory ++ [HistRecord.mk sm.currentState now ctx]).length
  · rw [if_pos h]
    rw [List.length_tail]
    simp at h ⊢
    omega
  · rw [if_neg h]
    simp at h ⊢
    omega

/-- Witness for the amended C9 at a fresh instance transitioning
`idle → waking`. -/
theorem setState_history_append_bounded_witness :
    (isValidState "waking" = true) ∧ (initSM.currentState ≠ "waking")
    ∧ (setState initSM "waking" [] 7).1.stateHistory = [HistRecord.mk "idle" 7 []]
    ∧ (setState initSM "waking" [] 7).1.stateHistory.length ≤ 50 := by
  refine ⟨by decide, by decide, ?_, ?_⟩
  · exact (setState_history_append_bounded initSM "waking" [] 7 (by decide)
      (by decide)).1.trans (by decide)
  · exact (setState_history_append_bounded initSM "waking" [] 7 (by decide)
      (by decide)).2 (by decide)

/-! ## The `VoiceManager` recognition supervisor

The asynchronous event handlers of the source become state-transformer
functions over a combined state: the `VoiceManager` flags, the shared
`AppState` instance, the timers (with a ghost list of the live
scheduled-restart timer ids), and the running status of the browser
speech primitives.  Start attempts report which detection path they
engaged.  Command dispatch (`onCommandReceived`) is modelled as an
emitted action: `handleRecognitionResult` returns the command it hands
to the dispatch flow, if any. -/

/-- Which detection path a start attempt engaged. -/
inductive StartMode
  | blocked
  | primaryStart
  | localStart
deriving DecidableEq

/-- Combined supervisor state. -/
structure VMState where
  sm : SMState
  isListening : Bool
  isRestarting : Bool
  isPaused : Bool
  isSpeaking : Bool
  isInConversation : Bool
  consecutiveErrors : Nat
  restartAttempts : Nat
  useLocalDetection : Bool
  pendingRestart : Option Nat
  liveRestartTimers : List Nat
  nextTimerId : Nat
  listeningTimerArmed : Bool
  conversationTimerArmed : Bool
  micPermission : Bool
  recognitionRunning : Bool
  localDetectionRunning : Bool
  ttsActive : Bool
  speechResolvePending : Bool
  lastCommand : Str
deriving DecidableEq

/-- `new VoiceManager()` with a fresh `AppState` and the microphone
permission granted. -/
def initVM : VMState :=
  { sm := initSM, isListening := false, isRestarting := false,
    isPaused := false, isSpeaking := false, isInConversation := false,
    consecutiveErrors := 0, restartAttempts := 0, useLocalDetection := false,
    pendingRestart := none, liveRestartTimers := [], nextTimerId := 0,
    listeningTimerArmed := false, conversationTimerArmed := false,
    micPermission := true, recognitionRunning := false,
    localDetectionRunning := false, ttsActive := false,
    speechResolvePending := false, lastCommand := [] }

/-- `clearTimeout(this.pendingRestart); this.pendingRestart = null` — the
cancel-before-reschedule pattern used throughout the supervisor. -/
def cancelPendingRestart (s : VMState) : VMState :=
  match s.pendingRestart with
  | some id =>
    { s with
      pendingRestart := none
      liveRestartTimers := s.liveRestartTimers.erase id }
  | none => s

/-- `scheduleRestart(delay)`: cancel any pending restart first, refuse
while paused, otherwise count the attempt and set a fresh timer. -/
def scheduleRestart (s : VMState) (_delay : Nat) : VMState :=
  let s := cancelPendingRestart s
  if s.isPaused then s
  else
    { s with
      restartAttempts := s.restartAttempts + 1
      pendingRestart := some s.nextTimerId
      liveRestartTimers := s.liveRestartTimers ++ [s.nextTimerId]
      nextTimerId := s.nextTimerId + 1 }

/-- `startWebSpeechDetection`: microphone permission check, then
`recognition.start()`; the `already started` error is caught by setting
`isListening` directly. -/
def startWebSpeechDetection (s : VMState) : VMState × StartMode :=
  if ¬ (s.micPermission = true) then (s, StartMode.blocked)
  else if s.recognitionRunning then
    ({ s with isListening := true }, StartMode.primaryStart)
  else
    ({ s with recognitionRunning := true, restartAttempts := 0 },
      StartMode.primaryStart)

/-- `startLocalDetection`: microphone permission check, then volume-based
monitoring with `isListening` set directly. -/
def startLocalDetection (s : VMState) : VMState × StartMode :=
  if ¬ (s.micPermission = true) then (s, StartMode.blocked)
  else ({ s with isListening := true, localDetectionRunning := true },
    StartMode.localStart)

/-- `startWakeWordDetection`: the three guards (paused / already
listening / restart in flight), then the local or Web-Speech path
according to `config.useLocalDetection`. -/
def startWakeWordDetection (s : VMState) : VMState × StartMode :=
  if s.isPaused then (s, StartMode.blocked)
  else if s.isListening then (s, StartMode.blocked)
  else if s.isRestarting then (s, StartMode.blocked)
  else if s.useLocalDetection then startLocalDetection s
  else startWebSpeechDetection s

/-- The scheduled-restart timer firing: clear the handle and the
`isRestarting` flag, then re-check the pause and listening flags before
starting detection. -/
def fireScheduledRestart (s : VMState) : VMState × StartMode :=
  match s.pendingRestart with
  | none => (s, StartMode.blocked)
  | some id =>
    let s :=
      { s with
        pendingRestart := none
        liveRestartTimers := s.liveRestartTimers.erase id
        isRestarting := false }
    if s.isPaused then (s, StartMode.blocked)
    else if s.isListening then (s, StartMode.blocked)
    else startWakeWordDetection s

/-- `forceRestartRecognition(reason)`: cancel any pending restart, reset
the blocking flags, then start afresh. -/
def forceRestartRecognition (s : VMState) : VMState × StartMode :=
  let s := cancelPendingRestart s
  let s := { s with isListening := false, isRestarting := false }
  startWakeWordDetection s

/-- `onRecognitionStart`. -/
def onRecognitionStart (s : VMState) : VMState :=
  { s with isListening := true, isRestarting := false, consecutiveErrors := 0 }

/-- `onRecognitionEnd`: the primitive stopped; keep recognition alive
through SPEAKING, otherwise restart unless paused, in local mode, or in
the `error`/`thinking` states. -/
def onRecognitionEnd (s : VMState) : VMState :=
  let s := { s with isListening := false, recognitionRunning := false }
  if s.sm.currentState = "speaking" ∨ s.isSpeaking = true then
    scheduleRestart s 100
  else if s.isPaused = true ∨ s.useLocalDetection = true then s
  else if ¬ (s.sm.currentState = "error" ∨ s.sm.currentState = "thinking") then
    scheduleRestart s (if s.sm.currentState = "listening" then 100 else 500)
  else s

/-- `onRecognitionError(event)`: ignored while thinking/speaking, `aborted`
ignored, other errors counted; a second consecutive error of kind
`network` switches permanently to local detection (`initLocalDetection`);
`no-speech` resets the counter and restarts fast; anything else restarts
with backoff. -/
def onRecognitionError (s : VMState) (errorType : String) : VMState :=
  if s.sm.currentState = "thinking" ∨ s.sm.currentState = "speaking" then s
  else if errorType = "aborted" then s
  else
    let s := { s with consecutiveErrors := s.consecutiveErrors + 1 }
    if errorType = "network" ∧ 2 ≤ s.consecutiveErrors then
      { s with useLocalDetection := true }
    else if errorType = "no-speech" then
      scheduleRestart { s with consecutiveErrors := 0 } 100
    else
      scheduleRestart s 500

/-- `stopWakeWordDetection`. -/
def stopWakeWordDetection (s : VMState) : VMState :=
  let s := { s with isPaused := true }
  let s := if s.isListening then { s with recognitionRunning := false } else s
  { s with isListening := false }

/-- `resumeWakeWordDetection`. -/
def resumeWakeWordDetection (s : VMState) : VMState × StartMode :=
  let s := { s with isPaused := false }
  if s.useLocalDetection then (s, StartMode.blocked)
  else startWakeWordDetection s

/-- `interruptSpeaking`: halt TTS (`synthesis.cancel()`), reset
`isSpeaking`, resolve any pending speak promise, transition to Listening,
cancel any pending restart, force-reset the blocking flags, start
recognition directly, and re-arm the conversation timeout. -/
def interruptSpeaking (s : VMState) (now : Nat) : VMState :=
  let s := { s with ttsActive := false }
  let s := { s with isSpeaking := false }
  let s := { s with speechResolvePending := false }
  let s := { s with
    sm := (setState s.sm "listening" [("source", CtxVal.str "interrupt")] now).1 }
  let s := cancelPendingRestart s
  let s := { s with isListening := false, isRestarting := false, isPaused := false }
  let s := if s.useLocalDetection then s else (startWakeWordDetection s).1
  { s with conversationTimerArmed := true }

/-- `onWakeWordDetected(transcript)`: enter `waking`; a command spoken
together with the wake word is dispatched (the deferred dispatch is the
returned action), otherwise enter `listening` and arm the listening
timeout. -/
def onWakeWordDetected (s : VMState) (t : Str) (now : Nat) : VMState × Option Str :=
  let s := { s with
    sm := (setState s.sm "waking" [("transcript", CtxVal.chars t)] now).1 }
  let cmd := extractCommandFromTranscript t
  if 2 < cmd.length then (s, some cmd)
  else
    ({ s with
      sm := (setState s.sm "listening" [("source", CtxVal.str "wake-word")] now).1,
      listeningTimerArmed := true }, none)

/-- `handleRecognitionResult` on the last result of the event.  The
returned `Option Str` is the command handed to the dispatch flow
(`onCommandReceived`), whose own asynchronous effects are not part of
this handler. -/
def handleRecognitionResult (s : VMState) (transcript : Str)
    (isFinal : Bool) (now : Nat) : VMState × Option Str :=
  let pt := trimStr (transcript.map jsToLower)
  if s.sm.currentState = "speaking" ∨ s.isSpeaking = true then
    if ¬ (isFinal = true) then (s, none)
    else if detectWakeWord pt = true then
      let s := interruptSpeaking s now
      let cmd := extractCommandFromTranscript pt
      if 2 < cmd.length then (s, some cmd)
      else
        let s := { s with
          sm := (setState s.sm "listening"
            [("source", CtxVal.str "interruption")] now).1,
          listeningTimerArmed := true }
        (s, none)
    else (s, none)
  else if ¬ (isFinal = true) then
    let s := if s.isInConversation = true ∧ 3 < pt.length
             then { s with conversationTimerArmed := false } else s
    (s, none)
  else
    let s := if 0 < pt.length then { s with consecutiveErrors := 0 } else s
    if s.sm.currentState = "idle" ∧ ¬ (s.isInConversation = true) then
      if detectWakeWord pt = true then
        let r := onWakeWordDetected s pt now
        ({ r.1 with lastCommand := pt }, r.2)
      else ({ s with lastCommand := pt }, none)
    else if s.sm.currentState = "waking" then
      if detectWakeWord pt = true then
        let r := onWakeWordDetected s pt now
        ({ r.1 with lastCommand := pt }, r.2)
      else ({ s with lastCommand := pt }, none)
    else if s.sm.currentState = "listening" then
      if 0 < pt.length then
        let s := { s with conversationTimerArmed := false }
        if detectWakeWord pt = true then
          let cmd := extractCommandFromTranscript pt
          if 2 < cmd.length then ({ s with lastCommand := pt }, some cmd)
          else
            let s := if s.isInConversation = true
                     then { s with conversationTimerArmed := true } else s
            ({ s with lastCommand := pt }, none)
        else ({ s with lastCommand := pt }, some pt)
      else ({ s with lastCommand := pt }, none)
    else ({ s with lastCommand := pt }, none)

/-- The conversation-timeout timer firing: back to idle when still
listening in a conversation, scheduling a restart first if recognition
has silently died. -/
def conversationTimeoutFire (s : VMState) (now : Nat) : VMState :=
  let s := { s with conversationTimerArmed := false }
  if s.sm.currentState = "listening" ∧ s.isInConversation = true then
    let s := { s with isInConversation := false }
    let s := if ¬ (s.isListening = true) ∧ ¬ (s.isRestarting = true)
                ∧ ¬ (s.useLocalDetection = true)
             then scheduleRestart s 100 else s
    { s with sm := (setState s.sm "idle" [] now).1 }
  else s

/-- The listening-timeout timer firing: re-prompt (beginning a TTS
utterance) and return to idle when still in Listening. -/
def listeningTimeoutFire (s : VMState) (now : Nat) : VMState :=
  let s := { s with listeningTimerArmed := false }
  if s.sm.currentState = "listening" then
    let s := { s with ttsActive := true, speechResolvePending := true }
    { s with sm := (setState s.sm "idle" [] now).1 }
  else s

/-! ## The WebSocket request of `processCommand`: response deadlines -/

/-- How a `processCommand` promise resolved. -/
inductive PCResult
  | apiResponse (text : Str)
  | localFallback
deriving DecidableEq

/-- State of one in-flight WebSocket request: the `isResolved` /
`toolInProgress` flags, whether `timeoutId` is set, the live deadline
timer (expiry instant, and whether it is the extended 60 s timer), the
resolution, and the responses routed to `handleLateResponse`. -/
structure PCState where
  isResolved : Bool
  toolInProgress : Bool
  timeoutHandleSet : Bool
  deadline : Option (Nat × Bool)
  result : Option PCResult
  lateResponses : List Str
deriving DecidableEq

/-- `LunaAPI.sendMessage(command)` followed by arming the initial 15 s
fallback timer. -/
def pcSend (now : Nat) : PCState :=
  { isResolved := false, toolInProgress := false, timeoutHandleSet := true,
    deadline := some (now + 15000, false), result := none, lateResponses := [] }

/-- `onToolStart`: mark the tool in flight and, when the fallback timer is
set and the promise unresolved, replace it by a 60 s timer from now. -/
def pcOnToolStart (p : PCState) (now : Nat) : PCState :=
  let p := { p with toolInProgress := true }
  if p.timeoutHandleSet = true ∧ p.isResolved = false then
    { p with deadline := some (now + 60000, true), timeoutHandleSet := true }
  else p

/-- `onResponse`: resolve with the backend text, or route to
`handleLateResponse` when already resolved. -/
def pcOnResponse (p : PCState) (text : Str) : PCState :=
  if p.isResolved then { p with lateResponses := p.lateResponses ++ [text] }
  else
    { p with
      isResolved := true
      timeoutHandleSet := false
      deadline := none
      result := some (PCResult.apiResponse text) }

/-- `onError`: resolve with the local fallback response. -/
def pcOnError (p : PCState) : PCState :=
  if p.isResolved then p
  else
    { p with
      isResolved := true
      timeoutHandleSet := false
      deadline := none
      result := some PCResult.localFallback }

/-- The live deadline timer firing.  The initial 15 s handler resolves the
fallback only when no tool is in progress (otherwise it just logs and
waits, leaving the stale handle set); the extended 60 s handler resolves
the fallback whenever the promise is still unresolved. -/
def pcFireDeadline (p : PCState) : PCState :=
  match p.deadline with
  | none => p
  | some (_, ext) =>
    let p := { p with deadline := none }
    if ext then
      if p.isResolved = false then
        { p with
          isResolved := true
          timeoutHandleSet := false
          result := some PCResult.localFallback }
      else p
    else
      if p.isResolved = false ∧ p.toolInProgress = false then
        { p with
          isResolved := true
          timeoutHandleSet := false
          result := some PCResult.localFallback }
      else p

/-- Timed events reaching the request. -/
inductive PCEvent
  | toolStart
  | response (text : Str)
  | errorEvt
deriving DecidableEq

/-- Fire the deadline timer if it is due by time `t`. -/
def pcAdvance (p : PCState) (t : Nat) : PCState :=
  match p.deadline with
  | some (d, _) => if d ≤ t then pcFireDeadline p else p
  | none => p

/-- Deliver one timed event, firing any deadline due first. -/
def pcStep (p : PCState) (e : Nat × PCEvent) : PCState :=
  let p := pcAdvance p e.1
  match e.2 with
  | PCEvent.toolStart => pcOnToolStart p e.1
  | PCEvent.response text => pcOnResponse p text
  | PCEvent.errorEvt => pcOnError p

/-- Run a request sent at `now` through a time-ordered event list. -/
def pcRun (now : Nat) (events : List (Nat × PCEvent)) : PCState :=
  events.foldl pcStep (pcSend now)

/-! ### Normal forms for `setState` -/

theorem setState_noop {sm : SMState} {ns : String} {ctx : Ctx} {now : Nat}
    (hval : isValidState ns = true) (h : sm.currentState = ns) :
    setState sm ns ctx now = (sm, true) := by
  simp [setState, hval, h]

theorem setState_invalid {sm : SMState} {ns : String} {ctx : Ctx} {now : Nat}
    (h : isValidState ns = false) :
    setState sm ns ctx now = (sm, false) := by
  simp [setState, h]

theorem setState_go {sm : SMState} {ns : String} {ctx : Ctx} {now : Nat}
    (hval : isValidState ns = true) (hne : sm.currentState ≠ ns) :
    setState sm ns ctx now =
      ({ currentState := ns
         previousState := some sm.currentState
         stateHistory :=
           if 50 < (sm.stateHistory ++ [HistRecord.mk sm.currentState now ctx]).length
           then (sm.stateHistory ++ [HistRecord.mk sm.currentState now ctx]).tail
           else sm.stateHistory ++ [HistRecord.mk sm.currentState now ctx]
         emitted := sm.emitted ++
           ["preTransition", "stateChange", "state:" ++ ns, "from:" ++ sm.currentState]
         pendingPostTransitions := sm.pendingPostTransitions + 1 }, true) := by
  simp [setState, hval, hne]

/-! ### The single-scheduled-restart-timer invariant -/

/-- At most one scheduled-restart timer is live, it is the one whose
handle is stored in `pendingRestart`, and all live timer ids are older
than the id counter. -/
def TimerInv (s : VMState) : Prop :=
  s.liveRestartTimers = s.pendingRestart.toList
  ∧ ∀ id ∈ s.liveRestartTimers, id < s.nextTimerId

theorem timerInv_length_le_one {s : VMState} (h : TimerInv s) :
    s.liveRestartTimers.length ≤ 1 := by
  rw [h.1]
  cases s.pendingRestart <;> simp

theorem cancelPendingRestart_eq {s : VMState} (h : TimerInv s) :
    cancelPendingRestart s
      = { s with pendingRestart := none, liveRestartTimers := [] } := by
  obtain ⟨h1, _⟩ := h
  cases hp : s.pendingRestart with
  | none =>
    have hl : s.liveRestartTimers = [] := by rw [h1, hp]; rfl
    simp only [cancelPendingRestart, hp]
    rw [← hp, ← hl]
  | some id =>
    have hl : s.liveRestartTimers = [id] := by rw [h1, hp]; rfl
    simp [cancelPendingRestart, hp, hl]

theorem scheduleRestart_eq {s : VMState} (h : TimerInv s) (d : Nat) :
    scheduleRestart s d
      = if s.isPaused = true
        then { s with pendingRestart := none, liveRestartTimers := [] }
        else { s with
          restartAttempts := s.restartAttempts + 1
          pendingRestart := some s.nextTimerId
          liveRestartTimers := [s.nextTimerId]
          nextTimerId := s.nextTimerId + 1 } := by
  rw [scheduleRestart, cancelPendingRestart_eq h]
  by_cases hp : s.isPaused = true <;> simp [hp]

theorem timerInv_scheduleRestart {s : VMState} (h : TimerInv s) (d : Nat) :
    TimerInv (scheduleRestart s d) := by
  rw [scheduleRestart_eq h d]
  by_cases hp : s.isPaused = true <;>
    simp [hp, TimerInv, Option.toList]

theorem timerInv_cancel {s : VMState} (h : TimerInv s) :
    TimerInv (cancelPendingRestart s) := by
  rw [cancelPendingRestart_eq h]
  exact ⟨rfl, by simp⟩

theorem timerInv_congr {s s' : VMState} (h : TimerInv s)
    (h1 : s'.pendingRestart = s.pendingRestart)
    (h2 : s'.liveRestartTimers = s.liveRestartTimers)
    (h3 : s'.nextTimerId = s.nextTimerId) : TimerInv s' := by
  obtain ⟨a, b⟩ := h
  refine ⟨by rw [h2, h1, a], ?_⟩
  intro id hid
  rw [h3]
  exact b id (h2 ▸ hid)

theorem startWake_pending (s : VMState) :
    (startWakeWordDetection s).1.pendingRestart = s.pendingRestart := by
  rw [startWakeWordDetection]
  split_ifs <;> simp [startLocalDetection, startWebSpeechDetection] <;>
    split_ifs <;> simp

theorem startWake_live (s : VMState) :
    (startWakeWordDetection s).1.liveRestartTimers = s.liveRestartTimers := by
  rw [startWakeWordDetection]
  split_ifs <;> simp [startLocalDetection, startWebSpeechDetection] <;>
    split_ifs <;> simp

theorem startWake_next (s : VMState) :
    (startWakeWordDetection s).1.nextTimerId = s.nextTimerId := by
  rw [startWakeWordDetection]
  split_ifs <;> simp [startLocalDetection, startWebSpeechDetection] <;>
    split_ifs <;> simp

theorem startWakeWordDetection_timers (s : VMState) :
    (startWakeWordDetection s).1.pendingRestart = s.pendingRestart
    ∧ (startWakeWordDetection s).1.liveRestartTimers = s.liveRestartTimers
    ∧ (startWakeWordDetection s).1.nextTimerId = s.nextTimerId :=
  ⟨startWake_pending s, startWake_live s, startWake_next s⟩

theorem timerInv_startWake {s : VMState} (h : TimerInv s) :
    TimerInv (startWakeWordDetection s).1 :=
  timerInv_congr h (startWakeWordDetection_timers s).1
    (startWakeWordDetection_timers s).2.1 (startWakeWordDetection_timers s).2.2

theorem timerInv_fireScheduledRestart {s : VMState} (h : TimerInv s) :
    TimerInv (fireScheduledRestart s).1
    ∧ ((fireScheduledRestart s).2 ≠ StartMode.blocked →
        s.isPaused = false ∧ s.isListening = false) := by
  cases hp : s.pendingRestart with
  | none =>
    refine ⟨?_, by simp [fireScheduledRestart, hp]⟩
    simpa [fireScheduledRestart, hp] using h
  | some id =>
    have hl : s.liveRestartTimers = [id] := by rw [h.1, hp]; rfl
    have hinv : TimerInv { s with
        pendingRestart := none
        liveRestartTimers := s.liveRestartTimers.erase id
        isRestarting := false } := by
      refine ⟨by simp [hl], by simp [hl]⟩
    simp only [fireScheduledRestart, hp]
    split_ifs with hpa hli
    · exact ⟨hinv, by simp⟩
    · exact ⟨hinv, by simp⟩
    · refine ⟨timerInv_startWake hinv, fun _ => ?_⟩
      exact ⟨by simpa using hpa, by simpa using hli⟩

theorem timerInv_forceRestart {s : VMState} (h : TimerInv s) :
    TimerInv (forceRestartRecognition s).1 := by
  rw [forceRestartRecognition, cancelPendingRestart_eq h]
  exact timerInv_startWake ⟨rfl, by simp⟩

theorem timerInv_onRecognitionStart {s : VMState} (h : TimerInv s) :
    TimerInv (onRecognitionStart s) := h

theorem timerInv_onRecognitionEnd {s : VMState} (h : TimerInv s) :
    TimerInv (onRecognitionEnd s) := by
  have h' : TimerInv { s with isListening := false, recognitionRunning := false } := h
  simp only [onRecognitionEnd]
  split_ifs <;> first
    | exact timerInv_scheduleRestart h' _
    | exact h'

theorem timerInv_onRecognitionError {s : VMState} (h : TimerInv s) (e : String) :
    TimerInv (onRecognitionError s e) := by
  have h1 : TimerInv { s with consecutiveErrors := s.consecutiveErrors + 1 } := h
  have h2 : TimerInv { s with consecutiveErrors := 0 } := h
  simp only [onRecognitionError]
  split_ifs <;> first
    | exact timerInv_scheduleRestart h2 _
    | exact timerInv_scheduleRestart h1 _
    | exact h

theorem interruptSpeaking_timers (s : VMState) (now : Nat) :
    (interruptSpeaking s now).pendingRestart = none
    ∧ (interruptSpeaking s now).liveRestartTimers
        = (match s.pendingRestart with
           | some id => s.liveRestartTimers.erase id
           | none => s.liveRestartTimers)
    ∧ (interruptSpeaking s now).nextTimerId = s.nextTimerId := by
  simp only [interruptSpeaking, cancelPendingRestart]
  cases hp : s.pendingRestart with
  | none =>
    split_ifs <;>
      simp [hp, startWake_pending, startWake_live, startWake_next]
  | some id =>
    split_ifs <;>
      simp [hp, startWake_pending, startWake_live, startWake_next]

theorem timerInv_interruptSpeaking {s : VMState} (h : TimerInv s) (now : Nat) :
    TimerInv (interruptSpeaking s now) := by
  obtain ⟨hpd, hlv, hnx⟩ := interruptSpeaking_timers s now
  obtain ⟨h1, h2⟩ := h
  constructor
  · rw [hlv, hpd]
    cases hp : s.pendingRestart with
    | none => rw [h1, hp]
    | some id =>
      have hl : s.liveRestartTimers = [id] := by rw [h1, hp]; rfl
      simp [hl]
  · intro id hid
    rw [hlv] at hid
    rw [hnx]
    cases hp : s.pendingRestart with
    | none =>
      rw [hp] at hid
      exact h2 id hid
    | some j =>
      rw [hp] at hid
      exact h2 id (List.mem_of_mem_erase hid)

theorem timerInv_stopWake {s : VMState} (h : TimerInv s) :
    TimerInv (stopWakeWordDetection s) := by
  simp only [stopWakeWordDetection]
  split_ifs <;> exact h

theorem timerInv_resumeWake {s : VMState} (h : TimerInv s) :
    TimerInv (resumeWakeWordDetection s).1 := by
  simp only [resumeWakeWordDetection]
  split_ifs with hl
  · exact h
  · exact timerInv_startWake h

theorem timerInv_onWakeWordDetected {s : VMState} (h : TimerInv s)
    (t : Str) (now : Nat) : TimerInv (onWakeWordDetected s t now).1 := by
  rw [onWakeWordDetected]
  by_cases hc : 2 < (extractCommandFromTranscript t).length
  · rw [if_pos hc]
    exact h
  · rw [if_neg hc]
    exact h

theorem timerInv_onWake_lastCommand {s : VMState} (h : TimerInv s)
    (t pt : Str) (now : Nat) :
    TimerInv { (onWakeWordDetected s t now).1 with lastCommand := pt } :=
  timerInv_onWakeWordDetected h t now

theorem timerInv_handleRecognitionResult {s : VMState} (h : TimerInv s)
    (t : Str) (f : Bool) (now : Nat) :
    TimerInv (handleRecognitionResult s t f now).1 := by
  have h0 : TimerInv { s with consecutiveErrors := 0 } := h
  have hint := timerInv_interruptSpeaking h now
  rw [handleRecognitionResult]
  by_cases c1 : s.sm.currentState = "speaking" ∨ s.isSpeaking = true
  · rw [if_pos c1]
    cases f with
    | false =>
      rw [if_pos (by simp)]
      exact h
    | true =>
      rw [if_neg (by simp)]
      by_cases c2 : detectWakeWord (trimStr (t.map jsToLower)) = true
      · rw [if_pos c2]
        by_cases c3 :
            2 < (extractCommandFromTranscript (trimStr (t.map jsToLower))).length
        · rw [if_pos c3]
          exact hint
        · rw [if_neg c3]
          exact hint
      · rw [if_neg c2]
        exact h
  · rw [if_neg c1]
    cases f with
    | false =>
      rw [if_pos (by simp)]
      by_cases c2 : s.isInConversation = true ∧ 3 < (trimStr (t.map jsToLower)).length
      · rw [if_pos c2]
        exact h
      · rw [if_neg c2]
        exact h
    | true =>
      rw [if_neg (by simp)]
      by_cases c4 : 0 < (trimStr (t.map jsToLower)).length
      · rw [if_pos c4]
        by_cases c5 : s.sm.currentState = "idle" ∧ ¬ (s.isInConversation = true)
        · rw [if_pos c5]
          by_cases c6 : detectWakeWord (trimStr (t.map jsToLower)) = true
          · rw [if_pos c6]
            exact timerInv_onWake_lastCommand h0 _ _ now
          · rw [if_neg c6]
            exact h
        · rw [if_neg c5]
          by_cases c7 : s.sm.currentState = "waking"
          · rw [if_pos c7]
            by_cases c6 : detectWakeWord (trimStr (t.map jsToLower)) = true
            · rw [if_pos c6]
              exact timerInv_onWake_lastCommand h0 _ _ now
            · rw [if_neg c6]
              exact h
          · rw [if_neg c7]
            by_cases c8 : s.sm.currentState = "listening"
            · rw [if_pos c8, if_pos c4]
              by_cases c6 : detectWakeWord (trimStr (t.map jsToLower)) = true
              · rw [if_pos c6]
                by_cases c3 : 2 <
                    (extractCommandFromTranscript (trimStr (t.map jsToLower))).length
                · rw [if_pos c3]
                  exact h
                · rw [if_neg c3]
                  by_cases c9 : s.isInConversation = true
                  · rw [if_pos c9]
                    exact h
                  · rw [if_neg c9]
                    exact h
              · rw [if_neg c6]
                exact h
            · rw [if_neg c8]
              exact h
      · rw [if_neg c4]
        by_cases c5 : s.sm.currentState = "idle" ∧ ¬ (s.isInConversation = true)
        · rw [if_pos c5]
          by_cases c6 : detectWakeWord (trimStr (t.map jsToLower)) = true
          · rw [if_pos c6]
            exact timerInv_onWake_lastCommand h _ _ now
          · rw [if_neg c6]
            exact h
        · rw [if_neg c5]
          by_cases c7 : s.sm.currentState = "waking"
          · rw [if_pos c7]
            by_cases c6 : detectWakeWord (trimStr (t.map jsToLower)) = true
            · rw [if_pos c6]
              exact timerInv_onWake_lastCommand h _ _ now
            · rw [if_neg c6]
              exact h
          · rw [if_neg c7]
            by_cases c8 : s.sm.currentState = "listening"
            · rw [if_pos c8, if_neg c4]
              exact h
            · rw [if_neg c8]
              exact h

theorem timerInv_conversationTimeoutFire {s : VMState} (h : TimerInv s)
    (now : Nat) : TimerInv (conversationTimeoutFire s now) := by
  have h1 : TimerInv { s with conversationTimerArmed := false, isInConversation := false } := h
  simp only [conversationTimeoutFire]
  split_ifs <;> first
    | exact h
    | exact timerInv_scheduleRestart h1 _

theorem timerInv_listeningTimeoutFire {s : VMState} (h : TimerInv s)
    (now : Nat) : TimerInv (listeningTimeoutFire s now) := by
  simp only [listeningTimeoutFire]
  split_ifs <;> exact h

theorem scheduleRestart_cancels {s : VMState} (h : TimerInv s) (d : Nat)
    {id : Nat} (hid : s.pendingRestart = some id) :
    id ∉ (scheduleRestart s d).liveRestartTimers := by
  have hlt : id < s.nextTimerId := h.2 id (by rw [h.1, hid]; simp)
  rw [scheduleRestart_eq h d]
  by_cases hp : s.isPaused = true
  · rw [if_pos hp]
    simp
  · rw [if_neg hp]
    simp
    omega

/-- C1: at most one scheduled-restart timer is live at any instant.
`scheduleRestart` always cancels the previously pending timer before
setting a new one, every supervisor operation preserves the
single-live-timer invariant, and when the scheduled-restart timer fires
it re-checks the `isPaused` and `isListening` flags before any start is
attempted. -/
theorem restart_timer_discipline :
    ∀ s : VMState, TimerInv s →
      s.liveRestartTimers.length ≤ 1
      ∧ (∀ d, TimerInv (scheduleRestart s d)
          ∧ (scheduleRestart s d).liveRestartTimers.length ≤ 1
          ∧ ∀ id, s.pendingRestart = some id →
              id ∉ (scheduleRestart s d).liveRestartTimers)
      ∧ (TimerInv (fireScheduledRestart s).1
          ∧ ((fireScheduledRestart s).2 ≠ StartMode.blocked →
              s.isPaused = false ∧ s.isListening = false))
      ∧ TimerInv (onRecognitionStart s)
      ∧ TimerInv (onRecognitionEnd s)
      ∧ (∀ e, TimerInv (onRecognitionError s e))
      ∧ TimerInv (startWakeWordDetection s).1
      ∧ TimerInv (forceRestartRecognition s).1
      ∧ (∀ now, TimerInv (interruptSpeaking s now))
      ∧ TimerInv (stopWakeWordDetection s)
      ∧ TimerInv (resumeWakeWordDetection s).1
      ∧ (∀ t f now, TimerInv (handleRecognitionResult s t f now).1)
      ∧ (∀ now, TimerInv (conversationTimeoutFire s now))
      ∧ (∀ now, TimerInv (listeningTimeoutFire s now)) := by
  intro s h
  exact ⟨timerInv_length_le_one h,
    fun d => ⟨timerInv_scheduleRestart h d,
      timerInv_length_le_one (timerInv_scheduleRestart h d),
      fun id hid => scheduleRestart_cancels h d hid⟩,
    timerInv_fireScheduledRestart h,
    timerInv_onRecognitionStart h,
    timerInv_onRecognitionEnd h,
    fun e => timerInv_onRecognitionError h e,
    timerInv_startWake h,
    timerInv_forceRestart h,
    fun now => timerInv_interruptSpeaking h now,
    timerInv_stopWake h,
    timerInv_resumeWake h,
    fun t f now => timerInv_handleRecognitionResult h t f now,
    fun now => timerInv_conversationTimeoutFire h now,
    fun now => timerInv_listeningTimeoutFire h now⟩

/-- Witness for C1, at a state that already has a pending scheduled
restart (timer id 0): rescheduling keeps at most one live timer and the
old timer is gone. -/
theorem restart_timer_discipline_witness :
    TimerInv { initVM with
      pendingRestart := some 0, liveRestartTimers := [0], nextTimerId := 1 }
    ∧ (scheduleRestart { initVM with
        pendingRestart := some 0, liveRestartTimers := [0], nextTimerId := 1 }
        200).liveRestartTimers.length ≤ 1
    ∧ 0 ∉ (scheduleRestart { initVM with
        pendingRestart := some 0, liveRestartTimers := [0], nextTimerId := 1 }
        200).liveRestartTimers :=
  ⟨⟨by decide, by decide⟩,
   ((restart_timer_discipline _ ⟨by decide, by decide⟩).2.1 200).2.1,
   ((restart_timer_discipline _ ⟨by decide, by decide⟩).2.1 200).2.2 0 (by decide)⟩

/-- C3 counterexample: a recognizer end event in the `thinking` state,
while unpaused and not in local-fallback mode, schedules *zero* restarts
(the claim demands exactly one for every state except Speaking). -/
theorem end_in_thinking_schedules_no_restart_counterexample :
    ({ initVM with sm := { initSM with currentState := "thinking" } }
        : VMState).isPaused = false
    ∧ ({ initVM with sm := { initSM with currentState := "thinking" } }
        : VMState).useLocalDetection = false
    ∧ ({ initVM with sm := { initSM with currentState := "thinking" } }
        : VMState).sm.currentState ≠ "speaking"
    ∧ (onRecognitionEnd { initVM with
        sm := { initSM with currentState := "thinking" } }).liveRestartTimers.length = 0
    ∧ (onRecognitionEnd { initVM with
        sm := { initSM with currentState := "thinking" } }).pendingRestart = none := by
  decide

/-- C3 (amended): for every state except Speaking, Thinking and Error, a
recognizer end event while unpaused and not in local-fallback mode
results in exactly one scheduled restart — one live timer, its handle
pending (in Thinking and Error no restart is scheduled, as the
counterexample shows). -/
theorem end_event_schedules_exactly_one_restart :
    ∀ s : VMState, TimerInv s →
      s.isPaused = false → s.useLocalDetection = false →
      s.sm.currentState ≠ "speaking" → s.sm.currentState ≠ "thinking" →
      s.sm.currentState ≠ "error" →
      (onRecognitionEnd s).liveRestartTimers.length = 1
      ∧ (onRecognitionEnd s).pendingRestart = some s.nextTimerId := by
  intro s h hp hl hs ht he
  have h1 : TimerInv { s with isListening := false, recognitionRunning := false } := h
  have hsch : ∀ d,
      (scheduleRestart { s with
        isListening := false, recognitionRunning := false } d).liveRestartTimers.length = 1
      ∧ (scheduleRestart { s with
          isListening := false, recognitionRunning := false } d).pendingRestart
        = some s.nextTimerId := by
    intro d
    rw [scheduleRestart_eq h1 d, if_neg (by simp [hp])]
    simp
  rw [onRecognitionEnd]
  by_cases c1 : s.sm.currentState = "speaking" ∨ s.isSpeaking = true
  · rw [if_pos c1]
    exact hsch 100
  · rw [if_neg c1, if_neg (by simp [hp, hl]), if_pos (by simp [he, ht])]
    exact hsch _

/-! ### Permanence of the local-detection fallback -/

theorem useLocal_cancel (s : VMState) :
    (cancelPendingRestart s).useLocalDetection = s.useLocalDetection := by
  cases hp : s.pendingRestart <;> simp [cancelPendingRestart, hp]

theorem useLocal_schedule (s : VMState) (d : Nat) :
    (scheduleRestart s d).useLocalDetection = s.useLocalDetection := by
  rw [scheduleRestart]
  split_ifs <;> simp [useLocal_cancel]

theorem scheduleRestart_fields (q : VMState) (d : Nat) :
    (scheduleRestart q d).sm = q.sm
    ∧ (scheduleRestart q d).consecutiveErrors = q.consecutiveErrors
    ∧ (scheduleRestart q d).isPaused = q.isPaused := by
  rw [scheduleRestart]
  split_ifs <;> cases hp : q.pendingRestart <;> simp [cancelPendingRestart, hp]

theorem useLocal_startWake (s : VMState) :
    (startWakeWordDetection s).1.useLocalDetection = s.useLocalDetection := by
  rw [startWakeWordDetection]
  split_ifs <;> simp [startLocalDetection, startWebSpeechDetection] <;>
    split_ifs <;> simp

theorem useLocal_fire (s : VMState) :
    (fireScheduledRestart s).1.useLocalDetection = s.useLocalDetection := by
  cases hp : s.pendingRestart <;> simp only [fireScheduledRestart, hp] <;>
    split_ifs <;> simp [useLocal_startWake]

theorem useLocal_force (s : VMState) :
    (forceRestartRecognition s).1.useLocalDetection = s.useLocalDetection := by
  rw [forceRestartRecognition]
  simp [useLocal_startWake, useLocal_cancel]

theorem useLocal_onEnd (s : VMState) :
    (onRecognitionEnd s).useLocalDetection = s.useLocalDetection := by
  simp only [onRecognitionEnd]
  split_ifs <;> simp [useLocal_schedule]

theorem useLocal_onError_mono (s : VMState) (e : String)
    (h : s.useLocalDetection = true) :
    (onRecognitionError s e).useLocalDetection = true := by
  simp only [onRecognitionError]
  split_ifs <;> simp [useLocal_schedule, h]

theorem useLocal_interrupt (s : VMState) (now : Nat) :
    (interruptSpeaking s now).useLocalDetection = s.useLocalDetection := by
  simp only [interruptSpeaking]
  split_ifs <;> simp [useLocal_startWake, useLocal_cancel]

theorem useLocal_stop (s : VMState) :
    (stopWakeWordDetection s).useLocalDetection = s.useLocalDetection := by
  simp only [stopWakeWordDetection]
  split_ifs <;> simp

theorem useLocal_resume (s : VMState) :
    (resumeWakeWordDetection s).1.useLocalDetection = s.useLocalDetection := by
  simp only [resumeWakeWordDetection]
  split_ifs with hl
  · simp_all
  · simp [useLocal_startWake]

theorem useLocal_onWake (s : VMState) (t : Str) (now : Nat) :
    (onWakeWordDetected s t now).1.useLocalDetection = s.useLocalDetection := by
  rw [onWakeWordDetected]
  by_cases hc : 2 < (extractCommandFromTranscript t).length
  · rw [if_pos hc]
  · rw [if_neg hc]

theorem useLocal_onStart (s : VMState) :
    (onRecognitionStart s).useLocalDetection = s.useLocalDetection := rfl

theorem useLocal_convFire (s : VMState) (now : Nat) :
    (conversationTimeoutFire s now).useLocalDetection = s.useLocalDetection := by
  simp only [conversationTimeoutFire]
  split_ifs <;> simp [useLocal_schedule]

theorem useLocal_listenFire (s : VMState) (now : Nat) :
    (listeningTimeoutFire s now).useLocalDetection = s.useLocalDetection := by
  simp only [listeningTimeoutFire]
  split_ifs <;> simp

theorem useLocal_handle (s : VMState) (t : Str) (f : Bool) (now : Nat) :
    (handleRecognitionResult s t f now).1.useLocalDetection
      = s.useLocalDetection := by
  rw [handleRecognitionResult]
  by_cases c1 : s.sm.currentState = "speaking" ∨ s.isSpeaking = true
  · rw [if_pos c1]
    cases f with
    | false => rw [if_pos (by simp)]
    | true =>
      rw [if_neg (by simp)]
      by_cases c2 : detectWakeWord (trimStr (t.map jsToLower)) = true
      · rw [if_pos c2]
        by_cases c3 :
            2 < (extractCommandFromTranscript (trimStr (t.map jsToLower))).length
        · rw [if_pos c3]
          simp [useLocal_interrupt]
        · rw [if_neg c3]
          simp [useLocal_interrupt]
      · rw [if_neg c2]
  · rw [if_neg c1]
    cases f with
    | false =>
      rw [if_pos (by simp)]
      by_cases c2 : s.isInConversation = true ∧ 3 < (trimStr (t.map jsToLower)).length
      · rw [if_pos c2]
      · rw [if_neg c2]
    | true =>
      rw [if_neg (by simp)]
      by_cases c4 : 0 < (trimStr (t.map jsToLower)).length <;>
        [rw [if_pos c4]; rw [if_neg c4]] <;>
      · by_cases c5 : s.sm.currentState = "idle" ∧ ¬ (s.isInConversation = true)
        · rw [if_pos c5]
          by_cases c6 : detectWakeWord (trimStr (t.map jsToLower)) = true
          · rw [if_pos c6]
            simp [useLocal_onWake]
          · rw [if_neg c6]
        · rw [if_neg c5]
          by_cases c7 : s.sm.currentState = "waking"
          · rw [if_pos c7]
            by_cases c6 : detectWakeWord (trimStr (t.map jsToLower)) = true
            · rw [if_pos c6]
              simp [useLocal_onWake]
            · rw [if_neg c6]
          · rw [if_neg c7]
            by_cases c8 : s.sm.currentState = "listening"
            · rw [if_pos c8]
              by_cases c4' : 0 < (trimStr (t.map jsToLower)).length
              · rw [if_pos c4']
                by_cases c6 : detectWakeWord (trimStr (t.map jsToLower)) = true
                · rw [if_pos c6]
                  by_cases c3 : 2 <
                      (extractCommandFromTranscript (trimStr (t.map jsToLower))).length
                  · rw [if_pos c3]
                  · rw [if_neg c3]
                    by_cases c9 : s.isInConversation = true
                    · rw [if_pos c9]
                    · rw [if_neg c9]
                · rw [if_neg c6]
              · rw [if_neg c4']
            · rw [if_neg c8]

theorem startWake_local_mode {q : VMState} (h : q.useLocalDetection = true) :
    (startWakeWordDetection q).2 ≠ StartMode.primaryStart := by
  rw [startWakeWordDetection]
  split_ifs
  · simp
  · simp
  · simp
  · rw [startLocalDetection]
    split_ifs <;> simp

theorem onEnd_local_noop {q : VMState} (h : q.useLocalDetection = true)
    (hsp : q.isSpeaking = false) (hst : q.sm.currentState ≠ "speaking") :
    onRecognitionEnd q
      = { q with isListening := false, recognitionRunning := false } := by
  simp only [onRecognitionEnd]
  rw [if_neg (by simp [hst, hsp]), if_pos (by simp [h])]

theorem fire_local_mode {q : VMState} (h : q.useLocalDetection = true) :
    (fireScheduledRestart q).2 ≠ StartMode.primaryStart := by
  cases hp : q.pendingRestart with
  | none => simp [fireScheduledRestart, hp]
  | some id =>
    simp only [fireScheduledRestart, hp]
    split_ifs <;>
      first
        | (refine @startWake_local_mode _ ?_; exact h)
        | simp

theorem resume_local_mode {q : VMState} (h : q.useLocalDetection = true) :
    (resumeWakeWordDetection q).2 ≠ StartMode.primaryStart := by
  simp only [resumeWakeWordDetection]
  split_ifs <;> simp_all

theorem force_local_mode {q : VMState} (h : q.useLocalDetection = true) :
    (forceRestartRecognition q).2 ≠ StartMode.primaryStart := by
  rw [forceRestartRecognition]
  refine @startWake_local_mode _ ?_
  simpa [useLocal_cancel] using h

theorem network_error_guard_eqs (s : VMState)
    (hst : s.sm.currentState = "listening") :
    onRecognitionError s "network"
      = (if 2 ≤ s.consecutiveErrors + 1
         then { s with
           consecutiveErrors := s.consecutiveErrors + 1
           useLocalDetection := true }
         else scheduleRestart { s with
           consecutiveErrors := s.consecutiveErrors + 1 } 500) := by
  by_cases hc : 2 ≤ s.consecutiveErrors + 1
  · rw [if_pos hc]
    simp [onRecognitionError, hst, hc]
  · rw [if_neg hc]
    simp [onRecognitionError, hst, hc]

theorem three_network_errors_local {s : VMState}
    (hst : s.sm.currentState = "listening") :
    (onRecognitionError (onRecognitionError (onRecognitionError s "network")
      "network") "network").useLocalDetection = true := by
  have h1 := network_error_guard_eqs s hst
  by_cases hc : 2 ≤ s.consecutiveErrors + 1
  · rw [h1, if_pos hc]
    exact useLocal_onError_mono _ _ (useLocal_onError_mono _ _ (by simp))
  · rw [h1, if_neg hc]
    have hqs : (scheduleRestart { s with
        consecutiveErrors := s.consecutiveErrors + 1 } 500).sm.currentState
        = "listening" := by
      rw [(scheduleRestart_fields _ _).1]
      exact hst
    have hqc : (scheduleRestart { s with
        consecutiveErrors := s.consecutiveErrors + 1 } 500).consecutiveErrors
        = s.consecutiveErrors + 1 :=
      (scheduleRestart_fields _ _).2.1
    rw [network_error_guard_eqs _ hqs, if_pos (by rw [hqc]; omega)]
    exact useLocal_onError_mono _ _ (by simp)

/-- C5: three consecutive `network` recognition errors while unpaused and
listening switch the supervisor to local volume-based detection; the
switch is permanent — every supervisor operation preserves
`useLocalDetection` — and afterwards no start path ever engages the
primary Web Speech recognizer again, while an adapter end event in local
mode schedules nothing at all. -/
theorem network_errors_switch_to_local_permanently :
    ∀ s : VMState, s.isPaused = false → s.sm.currentState = "listening" →
      (onRecognitionError (onRecognitionError (onRecognitionError s "network")
          "network") "network").useLocalDetection = true
      ∧ (∀ q : VMState, q.useLocalDetection = true →
          (startWakeWordDetection q).2 ≠ StartMode.primaryStart
          ∧ (fireScheduledRestart q).2 ≠ StartMode.primaryStart
          ∧ (resumeWakeWordDetection q).2 ≠ StartMode.primaryStart
          ∧ (forceRestartRecognition q).2 ≠ StartMode.primaryStart)
      ∧ (∀ q : VMState, q.useLocalDetection = true → q.isSpeaking = false →
          q.sm.currentState ≠ "speaking" →
          onRecognitionEnd q
            = { q with isListening := false, recognitionRunning := false })
      ∧ (∀ q : VMState, q.useLocalDetection = true →
          (onRecognitionEnd q).useLocalDetection = true
          ∧ (∀ e, (onRecognitionError q e).useLocalDetection = true)
          ∧ (fireScheduledRestart q).1.useLocalDetection = true
          ∧ (startWakeWordDetection q).1.useLocalDetection = true
          ∧ (∀ d, (scheduleRestart q d).useLocalDetection = true)
          ∧ (∀ now, (interruptSpeaking q now).useLocalDetection = true)
          ∧ (forceRestartRecognition q).1.useLocalDetection = true
          ∧ (onRecognitionStart q).useLocalDetection = true
          ∧ (stopWakeWordDetection q).useLocalDetection = true
          ∧ (resumeWakeWordDetection q).1.useLocalDetection = true
          ∧ (∀ t f now,
              (handleRecognitionResult q t f now).1.useLocalDetection = true)
          ∧ (∀ now, (conversationTimeoutFire q now).useLocalDetection = true)
          ∧ (∀ now, (listeningTimeoutFire q now).useLocalDetection = true)) := by
  intro s _ hst
  refine ⟨three_network_errors_local hst, ?_, ?_, ?_⟩
  · intro q hq
    exact ⟨startWake_local_mode hq, fire_local_mode hq,
      resume_local_mode hq, force_local_mode hq⟩
  · intro q hq hsp hstq
    exact onEnd_local_noop hq hsp hstq
  · intro q hq
    exact ⟨by rw [useLocal_onEnd]; exact hq,
      fun e => useLocal_onError_mono q e hq,
      by rw [useLocal_fire]; exact hq,
      by rw [useLocal_startWake]; exact hq,
      fun d => by rw [useLocal_schedule]; exact hq,
      fun now => by rw [useLocal_interrupt]; exact hq,
      by rw [useLocal_force]; exact hq,
      by rw [useLocal_onStart]; exact hq,
      by rw [useLocal_stop]; exact hq,
      by rw [useLocal_resume]; exact hq,
      fun t f now => by rw [useLocal_handle]; exact hq,
      fun now => by rw [useLocal_convFire]; exact hq,
      fun now => by rw [useLocal_listenFire]; exact hq⟩

/-- Witness for C5 on a fresh session in the Listening state. -/
theorem network_errors_switch_to_local_permanently_witness :
    ({ initVM with sm := { initSM with currentState := "listening" } }
        : VMState).isPaused = false
    ∧ (onRecognitionError (onRecognitionError (onRecognitionError
        { initVM with sm := { initSM with currentState := "listening" } }
        "network") "network") "network").useLocalDetection = true
    ∧ (startWakeWordDetection
        { initVM with useLocalDetection := true }).2 ≠ StartMode.primaryStart :=
  ⟨rfl,
   (network_errors_switch_to_local_permanently _ rfl rfl).1,
   ((network_errors_switch_to_local_permanently
      { initVM with sm := { initSM with currentState := "listening" } } rfl rfl).2.1
      { initVM with useLocalDetection := true } rfl).1⟩

/-! ### Interruption of speech: computation lemmas -/

theorem interrupt_first_facts {s : VMState} (n : Nat)
    (hst : s.sm.currentState = "speaking") (hloc : s.useLocalDetection = false)
    (hperm : s.micPermission = true) :
    (interruptSpeaking s n).ttsActive = false
    ∧ (interruptSpeaking s n).isSpeaking = false
    ∧ (interruptSpeaking s n).speechResolvePending = false
    ∧ (interruptSpeaking s n).sm.currentState = "listening"
    ∧ (interruptSpeaking s n).recognitionRunning = true
    ∧ (interruptSpeaking s n).pendingRestart = none
    ∧ (interruptSpeaking s n).conversationTimerArmed = true
    ∧ (interruptSpeaking s n).isPaused = false
    ∧ (interruptSpeaking s n).isRestarting = false
    ∧ (interruptSpeaking s n).useLocalDetection = false
    ∧ (interruptSpeaking s n).micPermission = true
    ∧ (interruptSpeaking s n).isListening = s.recognitionRunning := by
  have hv : isValidState "listening" = true := by decide
  have hne : ¬ (s.sm.currentState = "listening") := by rw [hst]; decide
  cases hp : s.pendingRestart <;> cases hr : s.recognitionRunning <;>
    simp [interruptSpeaking, cancelPendingRestart, setState, hv, hne, hp, hr,
      hloc, hperm, startWakeWordDetection, startWebSpeechDetection]

theorem interrupt_second {q : VMState} (n : Nat)
    (h1 : q.sm.currentState = "listening") (h2 : q.pendingRestart = none)
    (h3 : q.isPaused = false) (h4 : q.isRestarting = false)
    (h5 : q.useLocalDetection = false) (h6 : q.micPermission = true)
    (h7 : q.recognitionRunning = true) (h8 : q.ttsActive = false)
    (h9 : q.isSpeaking = false) (h10 : q.speechResolvePending = false)
    (h11 : q.conversationTimerArmed = true) :
    interruptSpeaking q n = { q with isListening := true } := by
  have hv : isValidState "listening" = true := by decide
  simp [interruptSpeaking, cancelPendingRestart, setState, hv, h1, h2, h3, h4,
    h5, h6, h7, h8, h9, h10, h11, startWakeWordDetection, startWebSpeechDetection]

theorem vm_update_isListening_self {X : VMState} (hX : X.isListening = true) :
    { X with isListening := true } = X := by
  rw [← hX]

/-- C2: `interruptSpeaking` is idempotent.  One call halts TTS, resolves
the in-flight speak promise, clears `isSpeaking`, moves the state machine
to Listening, and leaves the recognizer running with no pending restart;
a second call in that state changes nothing except confirming the
`isListening` flag (the flag the recognizer's asynchronous `onstart`
callback sets), and is the exact identity whenever the recognizer was
already running at the first interruption — as it is during Speaking,
where recognition is kept alive for wake-word interrupts. -/
theorem interruptSpeaking_idempotent :
    ∀ (s : VMState) (n1 n2 : Nat),
      s.sm.currentState = "speaking" → s.useLocalDetection = false →
      s.micPermission = true →
      ((interruptSpeaking s n1).ttsActive = false
        ∧ (interruptSpeaking s n1).isSpeaking = false
        ∧ (interruptSpeaking s n1).speechResolvePending = false
        ∧ (interruptSpeaking s n1).sm.currentState = "listening"
        ∧ (interruptSpeaking s n1).recognitionRunning = true
        ∧ (interruptSpeaking s n1).pendingRestart = none
        ∧ (interruptSpeaking s n1).conversationTimerArmed = true)
      ∧ interruptSpeaking (interruptSpeaking s n1) n2
          = { interruptSpeaking s n1 with isListening := true }
      ∧ (s.recognitionRunning = true →
          interruptSpeaking (interruptSpeaking s n1) n2
            = interruptSpeaking s n1) := by
  intro s n1 n2 hst hloc hperm
  obtain ⟨f1, f2, f3, f4, f5, f6, f7, f8, f9, f10, f11, f12⟩ :=
    interrupt_first_facts n1 hst hloc hperm
  have hsecond := interrupt_second n2 f4 f6 f8 f9 f10 f11 f5 f1 f2 f3 f7
  refine ⟨⟨f1, f2, f3, f4, f5, f6, f7⟩, hsecond, fun hr => ?_⟩
  rw [hsecond, vm_update_isListening_self (by rw [f12, hr])]

/-- Witness for C2 at a Speaking-state session with the recognizer
running, TTS active, and a speak promise outstanding. -/
theorem interruptSpeaking_idempotent_witness :
    (({ initVM with
        sm := { initSM with currentState := "speaking" }
        isSpeaking := true
        ttsActive := true
        speechResolvePending := true
        recognitionRunning := true } : VMState)).sm.currentState = "speaking"
    ∧ (interruptSpeaking { initVM with
        sm := { initSM with currentState := "speaking" }
        isSpeaking := true
        ttsActive := true
        speechResolvePending := true
        recognitionRunning := true } 3).isSpeaking = false
    ∧ interruptSpeaking (interruptSpeaking { initVM with
        sm := { initSM with currentState := "speaking" }
        isSpeaking := true
        ttsActive := true
        speechResolvePending := true
        recognitionRunning := true } 3) 4
      = interruptSpeaking { initVM with
        sm := { initSM with currentState := "speaking" }
        isSpeaking := true
        ttsActive := true
        speechResolvePending := true
        recognitionRunning := true } 3 :=
  ⟨rfl,
   (interruptSpeaking_idempotent _ 3 4 rfl rfl rfl).1.2.1,
   (interruptSpeaking_idempotent _ 3 4 rfl rfl rfl).2.2 rfl⟩

/-! ### A bare wake phrase heard in Listening -/

theorem handle_wake_only {s : VMState} {w : Str} {now : Nat}
    (hst : s.sm.currentState = "listening") (hsp : s.isSpeaking = false)
    (hconv : s.isInConversation = true)
    (hclean : trimStr (w.map jsToLower) = w)
    (hlen : 0 < w.length)
    (hdet : detectWakeWord w = true)
    (hext : ¬ 2 < (extractCommandFromTranscript w).length) :
    (handleRecognitionResult s w true now).2 = none
    ∧ (handleRecognitionResult s w true now).1.conversationTimerArmed = true := by
  rw [handleRecognitionResult, hclean]
  rw [if_neg (by simp [hst, hsp]), if_neg (by simp), if_pos hlen,
    if_neg (by simp [hst]), if_neg (by simp [hst]), if_pos (by simp [hst]),
    if_pos hlen, if_pos hdet, if_neg hext, if_pos (by simp [hconv])]
  simp

/-- C8: a final transcript consisting of exactly a wake-phrase
alternative, heard in the Listening state (with a conversation active),
dispatches no command and re-arms (resets) the conversation timeout. -/
theorem wake_phrase_only_in_listening_no_dispatch :
    ∀ (s : VMState) (w : Str) (now : Nat),
      s.sm.currentState = "listening" → s.isSpeaking = false →
      s.isInConversation = true → w ∈ allWakeWords →
      (handleRecognitionResult s w true now).2 = none
      ∧ (handleRecognitionResult s w true now).1.conversationTimerArmed = true := by
  intro s w now hst hsp hconv hw
  have hw' : w = "hey luna".toList ∨ w = "luna".toList ∨ w = "hey luna".toList
      ∨ w = "ok luna".toList ∨ w = "luda".toList ∨ w = "hey luda".toList
      ∨ w = "ok luda".toList := by
    simpa [allWakeWords, alternativeWakeWords, wakeWordMain] using hw
  rcases hw' with rfl | rfl | rfl | rfl | rfl | rfl | rfl <;>
    exact handle_wake_only hst hsp hconv (by decide) (by decide) (by decide)
      (by decide)

/-- Witness for C8: the bare phrase `hey luna` in Listening during a
conversation. -/
theorem wake_phrase_only_in_listening_no_dispatch_witness :
    (({ initVM with
        sm := { initSM with currentState := "listening" }
        isInConversation := true } : VMState)).sm.currentState = "listening"
    ∧ ("hey luna".toList ∈ allWakeWords)
    ∧ (handleRecognitionResult { initVM with
        sm := { initSM with currentState := "listening" }
        isInConversation := true } ("hey luna".toList) true 9).2 = none
    ∧ (handleRecognitionResult { initVM with
        sm := { initSM with currentState := "listening" }
        isInConversation := true } ("hey luna".toList) true
        9).1.conversationTimerArmed = true :=
  ⟨rfl, by decide,
   (wake_phrase_only_in_listening_no_dispatch _ _ 9 rfl rfl rfl (by decide)).1,
   (wake_phrase_only_in_listening_no_dispatch _ _ 9 rfl rfl rfl (by decide)).2⟩

/-! ### Backend response deadlines -/

/-- C4: a `tool.start` received before the initial 15 s response deadline
replaces that timer by a 60 s deadline measured from the `tool.start`
instant; a backend response arriving before the extended deadline (here
at 40 s) resolves the request normally — not through the fallback or
late-response paths; and the initial deadline firing while a tool is in
flight never resolves the local fallback. -/
theorem backend_tool_deadline_extension :
    ((pcStep (pcSend 0) (10000, PCEvent.toolStart)).deadline = some (70000, true)
      ∧ (pcStep (pcSend 0) (10000, PCEvent.toolStart)).isResolved = false)
    ∧ (∀ text : Str,
        pcRun 0 [(10000, PCEvent.toolStart), (40000, PCEvent.response text)]
          = { isResolved := true, toolInProgress := true,
              timeoutHandleSet := false, deadline := none,
              result := some (PCResult.apiResponse text), lateResponses := [] })
    ∧ (∀ (p : PCState) (d : Nat), p.deadline = some (d, false) →
        p.toolInProgress = true →
        (pcFireDeadline p).isResolved = p.isResolved
        ∧ (pcFireDeadline p).result = p.result) := by
  refine ⟨by decide, ?_, ?_⟩
  · intro text
    simp [pcRun, pcStep, pcSend, pcAdvance, pcOnToolStart, pcOnResponse,
      pcFireDeadline]
  · intro p d h1 h2
    simp [pcFireDeadline, h1, h2]

/-- Witness for C4: the Scenario D run at a concrete response text, and
the initial deadline firing on a concrete tool-in-flight request. -/
theorem backend_tool_deadline_extension_witness :
    (({ isResolved := false
        toolInProgress := true
        timeoutHandleSet := true
        deadline := some (15000, false)
        result := none
        lateResponses := [] }
        : PCState).deadline = some (15000, false))
    ∧ (pcFireDeadline
        { isResolved := false
          toolInProgress := true
          timeoutHandleSet := true
          deadline := some (15000, false)
          result := none
          lateResponses := [] }).isResolved = false
    ∧ pcRun 0 [(10000, PCEvent.toolStart), (40000, PCEvent.response ("ok".toList))]
        = { isResolved := true, toolInProgress := true,
            timeoutHandleSet := false, deadline := none,
            result := some (PCResult.apiResponse ("ok".toList)),
            lateResponses := [] } :=
  ⟨rfl,
   ((backend_tool_deadline_extension.2.2
      { isResolved := false
        toolInProgress := true
        timeoutHandleSet := true
        deadline := some (15000, false)
        result := none
        lateResponses := [] }
      15000 rfl rfl).1).trans rfl,
   backend_tool_deadline_extension.2.1 ("ok".toList)⟩

/-- Witness for the amended C3 in the Listening state. -/
theorem end_event_schedules_exactly_one_restart_witness :
    TimerInv { initVM with sm := { initSM with currentState := "listening" } }
    ∧ (onRecognitionEnd { initVM with
        sm := { initSM with currentState := "listening" } }).liveRestartTimers.length = 1 :=
  ⟨⟨by decide, by decide⟩,
   (end_event_schedules_exactly_one_restart _ ⟨by decide, by decide⟩ rfl rfl
      (by decide) (by decide) (by decide)).1⟩

end LunaEye
